import Mathlib

/-!
# Heimdall milestone module: ledger, validator and trackers

A shallow embedding of `checkpoint/keeper_milestone.go` and
`milestone/handler.go`.

* Byte strings (`[]byte`, Go `string`) are lists of byte values.
* The key-value store of the SDK context is a finite map presented as a
  function from keys to optional values; `Has`, `Get`, `Set`, `Delete` are
  the four store calls the keeper makes.
* `uint64` values are natural numbers; every `+` and `-` of the source on
  `uint64` is taken modulo `2 ^ 64`.
* The amino codec, the constants of package `helper` and the staking keeper
  are outside the module and enter as parameters.
-/

namespace Heimdall

/-! ## Machine integers -/

/-- Go `a + b` on `uint64`. -/
def u64add (a b : Nat) : Nat := (a + b) % 18446744073709551616

/-- Go `a - b` on `uint64`. -/
def u64sub (a b : Nat) : Nat :=
  (a % 18446744073709551616 + 18446744073709551616 - b % 18446744073709551616)
    % 18446744073709551616

/-! ## Byte strings and `strconv` -/

/-- Go byte slice or string: the sequence of its byte values. -/
abbrev Bytes := List Nat

/-- Digits of `strconv.FormatUint(n, 10)`, most significant first; the first
argument bounds the number of divisions and is never exhausted when it is at
least `n`. -/
def formatDigits : Nat → Nat → Bytes
  | 0, n => [48 + n % 10]
  | fuel + 1, n =>
    if n < 10 then [48 + n] else formatDigits fuel (n / 10) ++ [48 + n % 10]

/-- Go `strconv.FormatUint(n, 10)` as bytes. -/
def FormatUint (n : Nat) : Bytes := formatDigits n n

/-- Errors of `strconv.ParseUint`. -/
inductive NumError
  | ErrSyntax
  | ErrRange
  deriving DecidableEq, Repr

/-- Loop body of `strconv.ParseUint(s, 10, 64)`: consume bytes left to right
into the accumulator `n`, with the two overflow checks of the library
(`n >= cutoff` before the multiplication, `n1 > maxVal` after the addition). -/
def parseUintLoop : Bytes → Nat → Except NumError Nat
  | [], n => .ok n
  | c :: cs, n =>
    if 48 ≤ c ∧ c ≤ 57 then
      if n ≥ 1844674407370955162 then .error .ErrRange
      else
        let n1 := n * 10 + (c - 48)
        if n1 > 18446744073709551615 then .error .ErrRange
        else parseUintLoop cs n1
    else .error .ErrSyntax

/-- Go `strconv.ParseUint(s, 10, 64)`. -/
def ParseUint (s : Bytes) : Except NumError Nat :=
  if s = [] then .error .ErrSyntax else parseUintLoop s 0

/-- Equality of `Except` values is decidable when it is on both sides. -/
instance decEqExcept {ε α : Type} [DecidableEq ε] [DecidableEq α] : DecidableEq (Except ε α)
  | .ok a, .ok b =>
    if h : a = b then isTrue (by rw [h]) else isFalse (fun h2 => h (Except.ok.inj h2))
  | .error a, .error b =>
    if h : a = b then isTrue (by rw [h]) else isFalse (fun h2 => h (Except.error.inj h2))
  | .ok _, .error _ => isFalse (fun h2 => Except.noConfusion h2)
  | .error _, .ok _ => isFalse (fun h2 => Except.noConfusion h2)

/-! ## Data model -/

/-- Errors returned by the keeper and the handler: the constructors of package
`common` that the module uses, and `errors.New`. -/
inductive Error
  | ErrInvalidMsg (msg : String)
  | ErrMilestoneInvalid
  | ErrMilestoneNotInContinuity
  | ErrNoMilestoneFound
  | New (msg : String)
  deriving DecidableEq, Repr

/-- The stored value `hmTypes.Milestone`. -/
structure Milestone where
  Proposer : Bytes
  StartBlock : Nat
  EndBlock : Nat
  RootHash : Bytes
  MilestoneID : Bytes
  deriving DecidableEq, Repr

/-- The transaction `types.MsgMilestone`. -/
structure MsgMilestone where
  Proposer : Bytes
  StartBlock : Nat
  EndBlock : Nat
  RootHash : Bytes
  MilestoneID : Bytes
  deriving DecidableEq, Repr

/-- The milestone a caller persists for an accepted message. -/
def MsgMilestone.toMilestone (msg : MsgMilestone) : Milestone :=
  { Proposer := msg.Proposer, StartBlock := msg.StartBlock, EndBlock := msg.EndBlock,
    RootHash := msg.RootHash, MilestoneID := msg.MilestoneID }

/-- The codec `k.cdc` restricted to milestones. -/
structure Codec where
  MarshalBinaryBare : Milestone → Except Error Bytes
  UnmarshalBinaryBare : Bytes → Except Error Milestone

/-- Decoding what was encoded gives the value back. -/
def Codec.RoundTrip (cdc : Codec) : Prop :=
  ∀ m out, cdc.MarshalBinaryBare m = .ok out → cdc.UnmarshalBinaryBare out = .ok m

/-- Constants and getters of package `helper`. -/
structure Helper where
  MilestoneLength : Nat
  MilestonePruneNumber : Nat
  MilestoneHardForkHeight : Int
  MilestoneBorBlockHeight : Nat

/-- All `uint64` constants of `helper` are in range. -/
def Helper.InRange (h : Helper) : Prop :=
  h.MilestoneLength < 18446744073709551616 ∧
  h.MilestonePruneNumber < 18446744073709551616 ∧
  h.MilestoneBorBlockHeight < 18446744073709551616

/-! ## Key-value store -/

/-- State of `ctx.KVStore(k.storeKey)`. -/
def KVStore : Type := Bytes → Option Bytes

namespace KVStore

/-- The store with no key. -/
def empty : KVStore := fun _ => none

/-- The call `store.Has(key)`. -/
def Has (s : KVStore) (key : Bytes) : Bool := (s key).isSome

/-- The call `store.Get(key)`; an absent key gives the nil slice. -/
def Get (s : KVStore) (key : Bytes) : Bytes := (s key).getD []

/-- The call `store.Set(key, value)`. -/
def Set (s : KVStore) (key value : Bytes) : KVStore :=
  fun k => if k = key then some value else s k

/-- The call `store.Delete(key)`. -/
def Delete (s : KVStore) (key : Bytes) : KVStore :=
  fun k => if k = key then none else s k

end KVStore

/-! ## Keeper (`checkpoint/keeper_milestone.go`) -/

def MilestoneKey : Bytes := [0x20]
def CountKey : Bytes := [0x30]
def MilestoneNoAckKey : Bytes := [0x40]
def MilestoneLastNoAckKey : Bytes := [0x50]
def LastMilestoneTimeout : Bytes := [0x60]
def MilestoneIDKey : Bytes := [0x70]

/-- GetMilestoneKey appends the decimal text of the number to the prefix. -/
def GetMilestoneKey (milestoneNumber : Nat) : Bytes :=
  MilestoneKey ++ FormatUint milestoneNumber

/-- GetMilestoneNoAckKey appends the id to the no-ack prefix. -/
def GetMilestoneNoAckKey (milestoneId : Bytes) : Bytes :=
  MilestoneNoAckKey ++ milestoneId

/-- GetMilestoneIDKey appends the id to the registry prefix. -/
def GetMilestoneIDKey (milestoneId : Bytes) : Bytes :=
  MilestoneIDKey ++ milestoneId

/-- SetMilestoneCount writes the decimal text of the number under `CountKey`. -/
def SetMilestoneCount (s : KVStore) (number : Nat) : KVStore :=
  s.Set CountKey (FormatUint number)

/-- GetMilestoneCount parses the count, and gives 0 when it is absent or does
not parse. -/
def GetMilestoneCount (s : KVStore) : Nat :=
  if s.Has CountKey then
    match ParseUint (s.Get CountKey) with
    | .ok result => result
    | .error _ => 0
  else 0

/-- The unexported addMilestone: marshal, then store under the key; on a codec
error nothing is written. -/
def addMilestone (cdc : Codec) (s : KVStore) (key : Bytes) (milestone : Milestone) :
    KVStore × Option Error :=
  match cdc.MarshalBinaryBare milestone with
  | .error err => (s, some err)
  | .ok out => (s.Set key out, none)

/-- PruneMilestone deletes the entry of a positive number when it is present. -/
def PruneMilestone (s : KVStore) (number : Nat) : KVStore :=
  if number ≤ 0 then s
  else
    let milestoneKey := GetMilestoneKey number
    if !s.Has milestoneKey then s
    else s.Delete milestoneKey

/-- AddMilestone: write under the next number, prune, advance the count. The
result is the store after the call and the returned error (`none` for nil). -/
def AddMilestone (h : Helper) (cdc : Codec) (s : KVStore) (milestone : Milestone) :
    KVStore × Option Error :=
  let milestoneNumber := u64add (GetMilestoneCount s) 1
  let key := GetMilestoneKey milestoneNumber
  match addMilestone cdc s key milestone with
  | (s1, some err) => (s1, some err)
  | (s1, none) =>
    let pruningNumber := u64sub milestoneNumber h.MilestonePruneNumber
    let s2 := PruneMilestone s1 pruningNumber
    let s3 := SetMilestoneCount s2 milestoneNumber
    (s3, none)

/-- GetMilestoneByNumber: decode the entry of the number, or fail. -/
def GetMilestoneByNumber (cdc : Codec) (s : KVStore) (number : Nat) : Except Error Milestone :=
  let milestoneKey := GetMilestoneKey number
  if s.Has milestoneKey then
    match cdc.UnmarshalBinaryBare (s.Get milestoneKey) with
    | .error err => .error err
    | .ok milestone => .ok milestone
  else .error (.New "Invalid milestone Index")

/-- GetLastMilestone: decode the entry whose number is the count, or fail. -/
def GetLastMilestone (cdc : Codec) (s : KVStore) : Except Error Milestone :=
  let Count := GetMilestoneCount s
  let lastMilestoneKey := GetMilestoneKey Count
  if s.Has lastMilestoneKey then
    match cdc.UnmarshalBinaryBare (s.Get lastMilestoneKey) with
    | .error err => .error err
    | .ok _milestone => .ok _milestone
  else .error .ErrNoMilestoneFound

/-- SetMilestoneID registers an id. -/
def SetMilestoneID (s : KVStore) (milestoneId : Bytes) : KVStore :=
  s.Set (GetMilestoneIDKey milestoneId) milestoneId

/-- GetMilestoneID tests whether an id is registered. -/
def GetMilestoneID (s : KVStore) (milestoneId : Bytes) : Bool :=
  if s.Has (GetMilestoneIDKey milestoneId) then true else false

/-- SetNoAckMilestone records the id in the no-ack set and as the last
no-ack id. -/
def SetNoAckMilestone (s : KVStore) (milestoneId : Bytes) : KVStore :=
  let milestoneNoAckKey := GetMilestoneNoAckKey milestoneId
  let value := milestoneId
  (s.Set milestoneNoAckKey value).Set MilestoneLastNoAckKey value

/-- GetLastNoAckMilestone gives the last no-ack id, or the empty string. -/
def GetLastNoAckMilestone (s : KVStore) : Bytes :=
  if s.Has MilestoneLastNoAckKey then s.Get MilestoneLastNoAckKey else []

/-- GetNoAckMilestone tests whether the id is in the no-ack set. -/
def GetNoAckMilestone (s : KVStore) (milestoneId : Bytes) : Bool :=
  if s.Has (GetMilestoneNoAckKey milestoneId) then true else false

/-- SetLastMilestoneTimeout writes the decimal text of the timestamp. -/
def SetLastMilestoneTimeout (s : KVStore) (timestamp : Nat) : KVStore :=
  s.Set LastMilestoneTimeout (FormatUint timestamp)

/-- GetLastMilestoneTimeout parses the timeout, and gives 0 when it is absent
or does not parse. -/
def GetLastMilestoneTimeout (s : KVStore) : Nat :=
  if s.Has LastMilestoneTimeout then
    match ParseUint (s.Get LastMilestoneTimeout) with
    | .ok result => result
    | .error _ => 0
  else 0

/-! ## Handler (`milestone/handler.go`) -/

/-- A validator of the staking module, as far as the handler reads it. -/
structure Validator where
  Signer : Bytes
  deriving DecidableEq, Repr

/-- The validator set returned by `k.sk.GetValidatorSet`; `Proposer` may be nil. -/
structure ValidatorSet where
  Proposer : Option Validator
  deriving DecidableEq, Repr

/-- The milestone event emitted on acceptance, with its five attributes. -/
structure Event where
  Module : String
  Proposer : Bytes
  StartBlock : Bytes
  EndBlock : Bytes
  RootHash : Bytes
  deriving DecidableEq, Repr

/-- The `sdk.Result` of the handler: an error result or the emitted events. -/
inductive Result
  | Err (e : Error)
  | Ok (events : List Event)
  deriving DecidableEq, Repr

/-- The event built from the message: module tag, proposer, start block and
end block in decimal, root hash. -/
def milestoneEvent (msg : MsgMilestone) : Event :=
  { Module := "milestone", Proposer := msg.Proposer,
    StartBlock := FormatUint msg.StartBlock,
    EndBlock := FormatUint msg.EndBlock,
    RootHash := msg.RootHash }

/-- handleMsgMilestone validates a milestone transaction. -/
def handleMsgMilestone (h : Helper) (cdc : Codec) (height : Int) (msg : MsgMilestone)
    (s : KVStore) (validatorSet : ValidatorSet) : Result :=
  let milestoneLength := h.MilestoneLength
  if height < h.MilestoneHardForkHeight then
    .Err (.ErrInvalidMsg "Network hasn't reached the milestone hard forked height")
  else if u64sub (u64add msg.StartBlock milestoneLength) 1 ≠ msg.EndBlock then
    .Err .ErrMilestoneInvalid
  else
    let rest : Result :=
      match validatorSet.Proposer with
      | none => .Err (.ErrInvalidMsg "No proposer in stored validator set")
      | some proposer =>
        if msg.Proposer ≠ proposer.Signer then
          .Err (.ErrInvalidMsg "Invalid proposer in msg")
        else
          .Ok [milestoneEvent msg]
    match GetLastMilestone cdc s with
    | .ok lastMilestone =>
      if u64add lastMilestone.EndBlock 1 ≠ msg.StartBlock then
        .Err .ErrMilestoneNotInContinuity
      else rest
    | .error _ =>
      if msg.StartBlock ≠ h.MilestoneBorBlockHeight then .Err .ErrNoMilestoneFound
      else rest

/-! ## The handler with the store threaded through its calls

The same code with every store call returning the store it leaves behind, so
that the effect of the handler on the store can be stated. -/

/-- The call `store.Has(key)` with the store after it. -/
def KVStore.HasSt (key : Bytes) (s : KVStore) : Bool × KVStore := (s.Has key, s)

/-- The call `store.Get(key)` with the store after it. -/
def KVStore.GetSt (key : Bytes) (s : KVStore) : Bytes × KVStore := (s.Get key, s)

/-- GetMilestoneCount with the store after it. -/
def GetMilestoneCountSt (s : KVStore) : Nat × KVStore :=
  match KVStore.HasSt CountKey s with
  | (true, s1) =>
    match KVStore.GetSt CountKey s1 with
    | (value, s2) =>
      match ParseUint value with
      | .ok result => (result, s2)
      | .error _ => (0, s2)
  | (false, s1) => (0, s1)

/-- GetLastMilestone with the store after it. -/
def GetLastMilestoneSt (cdc : Codec) (s : KVStore) : Except Error Milestone × KVStore :=
  match GetMilestoneCountSt s with
  | (Count, s1) =>
    let lastMilestoneKey := GetMilestoneKey Count
    match KVStore.HasSt lastMilestoneKey s1 with
    | (true, s2) =>
      match KVStore.GetSt lastMilestoneKey s2 with
      | (value, s3) =>
        match cdc.UnmarshalBinaryBare value with
        | .error err => (.error err, s3)
        | .ok _milestone => (.ok _milestone, s3)
    | (false, s2) => (.error .ErrNoMilestoneFound, s2)

/-- handleMsgMilestone with the store after it. -/
def handleMsgMilestoneSt (h : Helper) (cdc : Codec) (height : Int) (msg : MsgMilestone)
    (s : KVStore) (validatorSet : ValidatorSet) : Result × KVStore :=
  let milestoneLength := h.MilestoneLength
  if height < h.MilestoneHardForkHeight then
    (.Err (.ErrInvalidMsg "Network hasn't reached the milestone hard forked height"), s)
  else if u64sub (u64add msg.StartBlock milestoneLength) 1 ≠ msg.EndBlock then
    (.Err .ErrMilestoneInvalid, s)
  else
    let rest : Result :=
      match validatorSet.Proposer with
      | none => .Err (.ErrInvalidMsg "No proposer in stored validator set")
      | some proposer =>
        if msg.Proposer ≠ proposer.Signer then
          .Err (.ErrInvalidMsg "Invalid proposer in msg")
        else
          .Ok [milestoneEvent msg]
    match GetLastMilestoneSt cdc s with
    | (.ok lastMilestone, s1) =>
      if u64add lastMilestone.EndBlock 1 ≠ msg.StartBlock then
        (.Err .ErrMilestoneNotInContinuity, s1)
      else (rest, s1)
    | (.error _, s1) =>
      if msg.StartBlock ≠ h.MilestoneBorBlockHeight then (.Err .ErrNoMilestoneFound, s1)
      else (rest, s1)

/-! ## Querier (`milestone/querier.go`) -/

/-- The error of a query: `sdk.ErrInternal` with the message and the cause
appended to it. -/
inductive QueryError
  | ErrInternal (msg : String) (cause : String)
  deriving DecidableEq, Repr

/-- The Go string `testing`. -/
def testingString : Bytes := [116, 101, 115, 116, 105, 110, 103]

set_option linter.unusedVariables false in
/-- handleQueryLatestNoAckMilestone: read the last no-ack id, log it, assign
the literal `testing` to the same variable, and serialise the variable.
`jsonMarshal` is `json.Marshal` on a string. -/
def handleQueryLatestNoAckMilestone (jsonMarshal : Bytes → Except String Bytes)
    (s : KVStore) : Except QueryError Bytes :=
  let res := GetLastNoAckMilestone s
  let res := testingString
  match jsonMarshal res with
  | .error err => .error (.ErrInternal "could not marshal result to JSON" err)
  | .ok bz => .ok bz

/-- The latest-no-ack query as the specification words it: the serialised
value of GetLastNoAckMilestone. -/
def queryLatestNoAckSpec (jsonMarshal : Bytes → Except String Bytes)
    (s : KVStore) : Except QueryError Bytes :=
  match jsonMarshal (GetLastNoAckMilestone s) with
  | .error err => .error (.ErrInternal "could not marshal result to JSON" err)
  | .ok bz => .ok bz

/-- What `json.Marshal` gives for a string of plain ASCII letters and digits:
the text between double quotes. -/
def jsonQuote (text : Bytes) : Except String Bytes := .ok ([34] ++ text ++ [34])

/-! ## Milestone validation (`checkpoint/types/merkel_milestone.go`) -/

/-- The two calls of `helper.IContractCaller` that ValidateMilestone names:
whether the blocks up to a height exist locally, and the vote on a root hash
for a block range, milestone length, root hash text and milestone id. -/
structure IContractCaller where
  CheckIfBlocksExist : Nat → Bool
  GetVoteOnRootHash : Nat → Nat → Nat → Bytes → Bytes → Except Error Bool

/-- ValidateMilestone: the length test, the local block test, then the
statement `return true, nil`, kept here as a return that is always taken, and
after it the vote on the root hash as the source has it. The result is the
returned pair, `none` standing for a nil error. -/
def ValidateMilestone (start endBlock : Nat) (rootHash : Bytes) (milestoneID : Bytes)
    (contractCaller : IContractCaller) (milestoneLength : Nat) : Bool × Option Error :=
  if u64sub (u64add start milestoneLength) 1 ≠ endBlock then
    (false, some (.New
      "Invalid milestone, difference in start and end block is not equal to sprint length"))
  else if !contractCaller.CheckIfBlocksExist endBlock then
    (false, some (.New "blocks not found locally"))
  else
    match (some (true, none) : Option (Bool × Option Error)) with
    | some returned => returned
    | none =>
      match contractCaller.GetVoteOnRootHash start endBlock milestoneLength rootHash
          milestoneID with
      | .error err => (false, some err)
      | .ok vote => (vote, none)

/-- A contract caller that has every block and votes against every root
hash. -/
def rejectingCaller : IContractCaller :=
  { CheckIfBlocksExist := fun _ => true, GetVoteOnRootHash := fun _ _ _ _ _ => .ok false }

/-! ## The validator as the specification words it -/

/-- Outcomes of the validator named by the specification. -/
inductive Decision
  | NetworkNotForked
  | InvalidLength
  | NotInContinuity
  | NoMilestoneFound
  | InvalidProposer
  | Accept
  deriving DecidableEq, Repr

/-- A rule of the validator: whether it holds, and the rejection when it does
not. -/
structure Rule where
  holds : Bool
  reject : Decision

/-- First failure wins; no failure accepts. -/
def firstFailure : List Rule → Decision
  | [] => .Accept
  | r :: rs => if r.holds then firstFailure rs else r.reject

/-- The four rules in the order of the specification, from the proposal, the
height, the ledger tail (absent on an empty ledger) and the active proposer.
Rule 2 is `endBlock - startBlock + 1 == milestoneLength` and rule 3 is
`startBlock == lastMilestone.endBlock + 1`, both in `uint64`. -/
def referenceRules (h : Helper) (height : Int) (msg : MsgMilestone)
    (tail : Option Milestone) (validatorSet : ValidatorSet) : List Rule :=
  [ { holds := decide (height ≥ h.MilestoneHardForkHeight), reject := .NetworkNotForked },
    { holds := decide (u64add (u64sub msg.EndBlock msg.StartBlock) 1 = h.MilestoneLength),
      reject := .InvalidLength },
    (match tail with
     | some lastMilestone =>
       { holds := decide (msg.StartBlock = u64add lastMilestone.EndBlock 1),
         reject := .NotInContinuity }
     | none =>
       { holds := decide (msg.StartBlock = h.MilestoneBorBlockHeight),
         reject := .NoMilestoneFound }),
    { holds := (match validatorSet.Proposer with
                | some proposer => decide (msg.Proposer = proposer.Signer)
                | none => false),
      reject := .InvalidProposer } ]

/-- The ordered four-rule reference decision. -/
def referenceDecision (h : Helper) (height : Int) (msg : MsgMilestone)
    (tail : Option Milestone) (validatorSet : ValidatorSet) : Decision :=
  firstFailure (referenceRules h height msg tail validatorSet)

/-- The ledger tail the validator sees: the result of GetLastMilestone, absent
when it fails. -/
def ledgerTail (cdc : Codec) (s : KVStore) : Option Milestone :=
  match GetLastMilestone cdc s with
  | .ok m => some m
  | .error _ => none

/-- The outcome a handler result stands for. The hard-fork rejection and the
two proposer rejections are `ErrInvalidMsg` with their own messages. -/
def Result.decision : Result → Option Decision
  | .Ok _ => some .Accept
  | .Err .ErrMilestoneInvalid => some .InvalidLength
  | .Err .ErrMilestoneNotInContinuity => some .NotInContinuity
  | .Err .ErrNoMilestoneFound => some .NoMilestoneFound
  | .Err (.New _) => none
  | .Err (.ErrInvalidMsg msg) =>
    if msg = "Network hasn't reached the milestone hard forked height" then
      some .NetworkNotForked
    else if msg = "No proposer in stored validator set" ∨ msg = "Invalid proposer in msg" then
      some .InvalidProposer
    else none

/-! ## A codec for examples -/

/-- A codec over a finite table of milestones: a milestone of the table is
encoded as the one byte of its position, anything else is an encoding
error. -/
def tableCodec (table : List Milestone) : Codec where
  MarshalBinaryBare m :=
    if m ∈ table then .ok [table.indexOf m] else .error (.New "milestone not in table")
  UnmarshalBinaryBare b :=
    match b with
    | [i] =>
      match table[i]? with
      | some m => .ok m
      | none => .error (.New "position out of table")
    | _ => .error (.New "malformed encoding")

/-! ## Example data: the scenario of the specification -/

/-- Configuration of the scenario: milestone length 4, genesis start block 100,
hard fork at height 0, prune window 100. -/
def scenarioHelper : Helper :=
  { MilestoneLength := 4, MilestonePruneNumber := 100,
    MilestoneHardForkHeight := 0, MilestoneBorBlockHeight := 100 }

/-- Signer address of the proposer of the scenario. -/
def scenarioSigner : Bytes := [0xAA]

/-- The validator set of the scenario, with its proposer. -/
def scenarioValidatorSet : ValidatorSet := { Proposer := some { Signer := scenarioSigner } }

/-- First proposal of the scenario: blocks 100 to 103, id `m1`. -/
def scenarioMsg1 : MsgMilestone :=
  { Proposer := scenarioSigner, StartBlock := 100, EndBlock := 103, RootHash := [1],
    MilestoneID := [109, 49] }

/-- Second proposal of the scenario: blocks 104 to 107, id `m2`. -/
def scenarioMsg2 : MsgMilestone :=
  { Proposer := scenarioSigner, StartBlock := 104, EndBlock := 107, RootHash := [2],
    MilestoneID := [109, 50] }

/-- Codec of the scenario: the table of its two milestones. -/
def scenarioCodec : Codec := tableCodec [scenarioMsg1.toMilestone, scenarioMsg2.toMilestone]

/-- A proposal from another signer. -/
def otherSignerMsg : MsgMilestone :=
  { Proposer := [0xBB], StartBlock := 100, EndBlock := 103, RootHash := [1],
    MilestoneID := [109, 49] }

/-- A proposal whose range wraps around `2 ^ 64`: it starts at the last
`uint64` and ends at block 2. -/
def wrapMsg : MsgMilestone :=
  { Proposer := scenarioSigner, StartBlock := 18446744073709551615, EndBlock := 2,
    RootHash := [3], MilestoneID := [109, 51] }

/-- A milestone ending just below the last `uint64`. -/
def highMilestone : Milestone :=
  { Proposer := scenarioSigner, StartBlock := 18446744073709551611,
    EndBlock := 18446744073709551614, RootHash := [4], MilestoneID := [109, 52] }

/-- A ledger whose tail is `highMilestone`. -/
def highStore : KVStore :=
  (AddMilestone scenarioHelper (tableCodec [highMilestone]) KVStore.empty highMilestone).1

/-- The scenario configuration with prune window 0. -/
def zeroWindowHelper : Helper :=
  { MilestoneLength := 4, MilestonePruneNumber := 0,
    MilestoneHardForkHeight := 0, MilestoneBorBlockHeight := 100 }

/-- The second block range of the scenario proposed under the id of the
first. -/
def replayMsg : MsgMilestone :=
  { Proposer := scenarioSigner, StartBlock := 104, EndBlock := 107, RootHash := [2],
    MilestoneID := [109, 49] }

/-- The ledger after the first milestone of the scenario, with its id
registered. -/
def registeredStore : KVStore :=
  SetMilestoneID
    (AddMilestone scenarioHelper scenarioCodec KVStore.empty scenarioMsg1.toMilestone).1
    scenarioMsg1.MilestoneID

/-! ## Sequences of calls -/

/-- Run AddMilestone over a list of milestones, left to right, stopping at the
first call that returns an error. The flag tells whether every call returned
nil. -/
def addAll (h : Helper) (cdc : Codec) : KVStore → List Milestone → KVStore × Bool
  | s, [] => (s, true)
  | s, m :: ms =>
    match AddMilestone h cdc s m with
    | (s1, none) => addAll h cdc s1 ms
    | (s1, some _) => (s1, false)

/-- One consensus round: the chain height, the proposal and the validator set
in force. -/
structure Round where
  height : Int
  msg : MsgMilestone
  validatorSet : ValidatorSet

/-- Run rounds left to right: each proposal is checked by handleMsgMilestone
and, when accepted, persisted with AddMilestone. The run stops at the first
rejection or persistence error; the flag tells whether there was none. -/
def runRounds (h : Helper) (cdc : Codec) : KVStore → List Round → KVStore × Bool
  | s, [] => (s, true)
  | s, r :: rs =>
    match handleMsgMilestone h cdc r.height r.msg s r.validatorSet with
    | .Err _ => (s, false)
    | .Ok _ =>
      match AddMilestone h cdc s r.msg.toMilestone with
      | (s1, none) => runRounds h cdc s1 rs
      | (s1, some _) => (s1, false)

/-- The ledger of the scenario: both proposals accepted and added, both ids
registered. -/
def scenarioStore : KVStore :=
  SetMilestoneID
    (SetMilestoneID
      (runRounds scenarioHelper scenarioCodec KVStore.empty
        [⟨5, scenarioMsg1, scenarioValidatorSet⟩, ⟨6, scenarioMsg2, scenarioValidatorSet⟩]).1
      scenarioMsg1.MilestoneID)
    scenarioMsg2.MilestoneID

/-! ## Invariants of the ledger -/

/-- Retention window: a present entry is numbered 0 or lies among the `K`
numbers ending at the count, counted backwards modulo `2 ^ 64`. -/
def Window (K : Nat) (s : KVStore) : Prop :=
  ∀ n, n < 18446744073709551616 → s (GetMilestoneKey n) ≠ none →
    n = 0 ∨ ∃ j, j < K ∧
      n = (GetMilestoneCount s + 18446744073709551616 - j) % 18446744073709551616

/-- Continuity of the ledger: retrievable entries with adjacent numbers cover
adjacent block ranges. -/
def Continuous (cdc : Codec) (s : KVStore) : Prop :=
  ∀ i mi mj, i + 1 < 18446744073709551616 →
    GetMilestoneByNumber cdc s i = .ok mi →
    GetMilestoneByNumber cdc s (i + 1) = .ok mj →
    u64add mi.EndBlock 1 = mj.StartBlock

/-! ## `strconv` facts -/

theorem formatDigits_fuel (f : Nat) : ∀ g n, n ≤ f → n ≤ g →
    formatDigits f n = formatDigits g n := by
  induction f with
  | zero =>
    intro g n hf _
    have hn : n = 0 := by omega
    subst hn
    cases g <;> simp [formatDigits]
  | succ f ih =>
    intro g n hf hg
    cases g with
    | zero =>
      have hn : n = 0 := by omega
      subst hn
      simp [formatDigits]
    | succ g =>
      simp only [formatDigits]
      by_cases hlt : n < 10
      · simp [hlt]
      · simp only [hlt, if_false]
        rw [ih g (n / 10) (by omega) (by omega)]

theorem FormatUint_lt {n : Nat} (hn : n < 10) : FormatUint n = [48 + n] := by
  unfold FormatUint
  cases n with
  | zero => simp [formatDigits]
  | succ k => simp [formatDigits, hn]

theorem FormatUint_ge {n : Nat} (hn : 10 ≤ n) :
    FormatUint n = FormatUint (n / 10) ++ [48 + n % 10] := by
  unfold FormatUint
  cases n with
  | zero => omega
  | succ k =>
    have hlt : ¬ (k + 1 < 10) := by omega
    simp only [formatDigits, hlt, if_false]
    rw [formatDigits_fuel k ((k + 1) / 10) ((k + 1) / 10) (by omega) (le_refl _)]

theorem FormatUint_ne_nil (n : Nat) : FormatUint n ≠ [] := by
  by_cases hn : n < 10
  · rw [FormatUint_lt hn]; simp
  · rw [FormatUint_ge (by omega)]; simp

theorem parseUintLoop_snoc (xs : Bytes) (c : Nat) : ∀ n,
    parseUintLoop (xs ++ [c]) n =
      match parseUintLoop xs n with
      | .ok a => parseUintLoop [c] a
      | .error e => .error e := by
  induction xs with
  | nil => intro n; simp [parseUintLoop]
  | cons x xs ih =>
    intro n
    simp only [List.cons_append, parseUintLoop]
    by_cases h1 : 48 ≤ x ∧ x ≤ 57
    · simp only [h1, and_self, if_true]
      by_cases h2 : n ≥ 1844674407370955162
      · simp [h2]
      · simp only [h2, if_false]
        by_cases h3 : n * 10 + (x - 48) > 18446744073709551615
        · simp [h3]
        · simp only [h3, if_false]
          exact ih _
    · simp [h1]

theorem parseUintLoop_FormatUint (n : Nat) (hn : n < 18446744073709551616) :
    parseUintLoop (FormatUint n) 0 = .ok n := by
  induction n using Nat.strong_induction_on with
  | _ n ih =>
    by_cases hlt : n < 10
    · rw [FormatUint_lt hlt]
      have h1 : 48 ≤ 48 + n ∧ 48 + n ≤ 57 := by omega
      simp only [parseUintLoop, h1, and_self, if_true]
      simp
      omega
    · rw [FormatUint_ge (by omega), parseUintLoop_snoc, ih (n / 10) (by omega) (by omega)]
      have h1 : 48 ≤ 48 + n % 10 ∧ 48 + n % 10 ≤ 57 := by omega
      have h2 : ¬ (n / 10 ≥ 1844674407370955162) := by omega
      have h3 : ¬ (n / 10 * 10 + (48 + n % 10 - 48) > 18446744073709551615) := by omega
      have h4 : n / 10 * 10 + (48 + n % 10 - 48) = n := by omega
      have h5 : ¬ (n > 18446744073709551615) := by omega
      simp only [parseUintLoop, h1, and_self, if_true, h2, if_false, h4, h5]

/-- Parsing the decimal text of a `uint64` gives the number back. -/
theorem ParseUint_FormatUint (n : Nat) (hn : n < 18446744073709551616) :
    ParseUint (FormatUint n) = .ok n := by
  unfold ParseUint
  simp only [FormatUint_ne_nil, if_false]
  exact parseUintLoop_FormatUint n hn

/-- The decimal text determines the `uint64`. -/
theorem FormatUint_inj {a b : Nat} (ha : a < 18446744073709551616)
    (hb : b < 18446744073709551616) (hab : FormatUint a = FormatUint b) : a = b := by
  have h1 := ParseUint_FormatUint a ha
  rw [hab, ParseUint_FormatUint b hb] at h1
  exact (Except.ok.inj h1).symm

theorem parseUintLoop_le (s : Bytes) : ∀ n r, n ≤ 18446744073709551615 →
    parseUintLoop s n = .ok r → r ≤ 18446744073709551615 := by
  induction s with
  | nil =>
    intro n r hn h
    simp only [parseUintLoop] at h
    cases h
    exact hn
  | cons c cs ih =>
    intro n r hn h
    simp only [parseUintLoop] at h
    by_cases h1 : 48 ≤ c ∧ c ≤ 57
    · simp only [h1, and_self, if_true] at h
      by_cases h2 : n ≥ 1844674407370955162
      · simp [h2] at h
      · simp only [h2, if_false] at h
        by_cases h3 : n * 10 + (c - 48) > 18446744073709551615
        · simp [h3] at h
        · simp only [h3, if_false] at h
          exact ih _ r (by omega) h
    · simp [h1] at h

theorem ParseUint_le (s : Bytes) (r : Nat) (h : ParseUint s = .ok r) :
    r ≤ 18446744073709551615 := by
  unfold ParseUint at h
  by_cases hs : s = []
  · simp [hs] at h
  · simp only [hs, if_false] at h
    exact parseUintLoop_le s 0 r (by omega) h

/-! ## Store and key facts -/

theorem GetMilestoneKey_inj {a b : Nat} (ha : a < 18446744073709551616)
    (hb : b < 18446744073709551616) (hab : GetMilestoneKey a = GetMilestoneKey b) : a = b := by
  unfold GetMilestoneKey at hab
  exact FormatUint_inj ha hb (List.append_cancel_left hab)

theorem GetMilestoneKey_ne_CountKey (n : Nat) : GetMilestoneKey n ≠ CountKey := by
  simp [GetMilestoneKey, MilestoneKey, CountKey]

theorem GetMilestoneCount_lt (s : KVStore) : GetMilestoneCount s < 18446744073709551616 := by
  unfold GetMilestoneCount
  split
  · split
    · rename_i r hr
      have := ParseUint_le _ r hr
      omega
    · omega
  · omega

theorem GetMilestoneCount_empty : GetMilestoneCount KVStore.empty = 0 := by
  simp [GetMilestoneCount, KVStore.Has, KVStore.empty]

theorem GetMilestoneCount_SetMilestoneCount (s : KVStore) (n : Nat)
    (hn : n < 18446744073709551616) : GetMilestoneCount (SetMilestoneCount s n) = n := by
  simp [GetMilestoneCount, SetMilestoneCount, KVStore.Has, KVStore.Get, KVStore.Set,
    ParseUint_FormatUint n hn]

/-- The count is read from `CountKey` alone. -/
theorem GetMilestoneCount_congr (s t : KVStore) (hst : t CountKey = s CountKey) :
    GetMilestoneCount t = GetMilestoneCount s := by
  simp [GetMilestoneCount, KVStore.Has, KVStore.Get, hst]

/-- Deleting an absent key changes nothing, so pruning is a deletion. -/
theorem PruneMilestone_eq (s : KVStore) (n : Nat) :
    PruneMilestone s n = if n = 0 then s else s.Delete (GetMilestoneKey n) := by
  unfold PruneMilestone
  by_cases hn : n = 0
  · simp [hn]
  · have hn2 : ¬ (n ≤ 0) := by omega
    simp only [hn, hn2, if_false]
    by_cases hh : s.Has (GetMilestoneKey n) = true
    · simp [hh]
    · simp only [hh, Bool.not_false, if_true, Bool.false_eq_true]
      funext k
      unfold KVStore.Delete
      by_cases hk : k = GetMilestoneKey n
      · subst hk
        simp only [if_true]
        unfold KVStore.Has at hh
        cases hs : s (GetMilestoneKey n) with
        | none => rfl
        | some v => simp [hs] at hh
      · simp [hk]

theorem PruneMilestone_CountKey (s : KVStore) (n : Nat) :
    (PruneMilestone s n) CountKey = s CountKey := by
  rw [PruneMilestone_eq]
  by_cases hn : n = 0
  · simp [hn]
  · simp only [hn, if_false, KVStore.Delete]
    have := GetMilestoneKey_ne_CountKey n
    simp [Ne.symm this]

theorem GetMilestoneByNumber_eq (cdc : Codec) (s : KVStore) (n : Nat) :
    GetMilestoneByNumber cdc s n =
      match s (GetMilestoneKey n) with
      | none => .error (.New "Invalid milestone Index")
      | some b => cdc.UnmarshalBinaryBare b := by
  unfold GetMilestoneByNumber KVStore.Has KVStore.Get
  cases hs : s (GetMilestoneKey n) with
  | none => simp [hs]
  | some b =>
    cases hu : cdc.UnmarshalBinaryBare b <;> simp [hs, hu]

theorem GetLastMilestone_eq (cdc : Codec) (s : KVStore) :
    GetLastMilestone cdc s =
      match s (GetMilestoneKey (GetMilestoneCount s)) with
      | none => .error .ErrNoMilestoneFound
      | some b => cdc.UnmarshalBinaryBare b := by
  unfold GetLastMilestone KVStore.Has KVStore.Get
  cases hs : s (GetMilestoneKey (GetMilestoneCount s)) with
  | none => simp [hs]
  | some b =>
    cases hu : cdc.UnmarshalBinaryBare b <;> simp [hs, hu]

/-! ## One call of AddMilestone -/

theorem AddMilestone_ok (h : Helper) (cdc : Codec) (s : KVStore) (m : Milestone) (out : Bytes)
    (hm : cdc.MarshalBinaryBare m = .ok out) :
    AddMilestone h cdc s m =
      (SetMilestoneCount
        (PruneMilestone (s.Set (GetMilestoneKey (u64add (GetMilestoneCount s) 1)) out)
          (u64sub (u64add (GetMilestoneCount s) 1) h.MilestonePruneNumber))
        (u64add (GetMilestoneCount s) 1), none) := by
  simp [AddMilestone, addMilestone, hm]

theorem AddMilestone_error (h : Helper) (cdc : Codec) (s : KVStore) (m : Milestone) (e : Error)
    (hm : cdc.MarshalBinaryBare m = .error e) :
    AddMilestone h cdc s m = (s, some e) := by
  simp [AddMilestone, addMilestone, hm]

/-- AddMilestone returns nil exactly when the encoding succeeds. -/
theorem AddMilestone_nil_iff (h : Helper) (cdc : Codec) (s : KVStore) (m : Milestone) :
    (AddMilestone h cdc s m).2 = none ↔ ∃ out, cdc.MarshalBinaryBare m = .ok out := by
  cases hm : cdc.MarshalBinaryBare m with
  | error e => simp [AddMilestone_error h cdc s m e hm]
  | ok out => simp [AddMilestone_ok h cdc s m out hm]

theorem u64add_lt (a b : Nat) : u64add a b < 18446744073709551616 := by
  unfold u64add; omega

theorem u64sub_lt (a b : Nat) : u64sub a b < 18446744073709551616 := by
  unfold u64sub; omega

theorem AddMilestone_count (h : Helper) (cdc : Codec) (s : KVStore) (m : Milestone) (out : Bytes)
    (hm : cdc.MarshalBinaryBare m = .ok out) :
    GetMilestoneCount (AddMilestone h cdc s m).1 = u64add (GetMilestoneCount s) 1 := by
  rw [AddMilestone_ok h cdc s m out hm]
  exact GetMilestoneCount_SetMilestoneCount _ _ (u64add_lt _ _)

/-- Entries after a successful AddMilestone: the pruned number is gone, the new
number holds the encoding, every other number is as before. -/
theorem AddMilestone_entry (h : Helper) (cdc : Codec) (s : KVStore) (m : Milestone) (out : Bytes)
    (hm : cdc.MarshalBinaryBare m = .ok out) (n : Nat) (hn : n < 18446744073709551616) :
    (AddMilestone h cdc s m).1 (GetMilestoneKey n) =
      if u64sub (u64add (GetMilestoneCount s) 1) h.MilestonePruneNumber ≠ 0 ∧
          n = u64sub (u64add (GetMilestoneCount s) 1) h.MilestonePruneNumber then none
      else if n = u64add (GetMilestoneCount s) 1 then some out
      else s (GetMilestoneKey n) := by
  rw [AddMilestone_ok h cdc s m out hm]
  simp only [SetMilestoneCount, KVStore.Set, GetMilestoneKey_ne_CountKey, if_false]
  rw [PruneMilestone_eq]
  have hc := u64add_lt (GetMilestoneCount s) 1
  have hp := u64sub_lt (u64add (GetMilestoneCount s) 1) h.MilestonePruneNumber
  generalize u64add (GetMilestoneCount s) 1 = c at hc hp ⊢
  generalize u64sub c h.MilestonePruneNumber = p at hp ⊢
  by_cases hp0 : p = 0
  · simp only [hp0, if_true, ne_eq, not_true_eq_false, false_and, if_false]
    by_cases hnc : n = c
    · simp [hnc, KVStore.Set]
    · have : GetMilestoneKey n ≠ GetMilestoneKey c := fun hk => hnc (GetMilestoneKey_inj hn hc hk)
      simp [hnc, this, KVStore.Set]
  · simp only [hp0, if_false, ne_eq, not_false_eq_true, true_and, KVStore.Delete]
    by_cases hnp : n = p
    · simp [hnp]
    · have h1 : GetMilestoneKey n ≠ GetMilestoneKey p := fun hk => hnp (GetMilestoneKey_inj hn hp hk)
      simp only [h1, hnp, if_false]
      by_cases hnc : n = c
      · simp [hnc, KVStore.Set]
      · have : GetMilestoneKey n ≠ GetMilestoneKey c := fun hk => hnc (GetMilestoneKey_inj hn hc hk)
        simp [hnc, this, KVStore.Set]

theorem tableCodec_RoundTrip (table : List Milestone) : (tableCodec table).RoundTrip := by
  intro m out hm
  simp only [tableCodec] at hm ⊢
  by_cases hmem : m ∈ table
  · simp only [hmem, if_true] at hm
    cases hm
    simp [List.getElem?_indexOf hmem]
  · simp [hmem] at hm

/-! ## The validator -/

/-- The length test of the handler is the length rule of the specification in
`uint64`. -/
theorem length_rule_iff (a e l : Nat) (ha : a < 18446744073709551616)
    (he : e < 18446744073709551616) (hl : l < 18446744073709551616) :
    u64sub (u64add a l) 1 = e ↔ u64add (u64sub e a) 1 = l := by
  unfold u64sub u64add
  omega

/-- C1. For every height, message with `uint64` block numbers, store state and
validator set, the outcome of handleMsgMilestone is the decision of the
ordered four-rule reference applied to the ledger tail, and the reference
accepts exactly when the handler returns the result carrying the milestone
event. -/
theorem handleMsgMilestone_refines_reference (h : Helper) (cdc : Codec) (height : Int)
    (msg : MsgMilestone) (s : KVStore) (validatorSet : ValidatorSet)
    (hstart : msg.StartBlock < 18446744073709551616)
    (hend : msg.EndBlock < 18446744073709551616)
    (hlen : h.MilestoneLength < 18446744073709551616) :
    (handleMsgMilestone h cdc height msg s validatorSet).decision =
        some (referenceDecision h height msg (ledgerTail cdc s) validatorSet) ∧
      (referenceDecision h height msg (ledgerTail cdc s) validatorSet = .Accept ↔
        handleMsgMilestone h cdc height msg s validatorSet = .Ok [milestoneEvent msg]) := by
  obtain ⟨prop, a, e, root, id⟩ := msg
  dsimp only at hstart hend
  have hiff := length_rule_iff a e h.MilestoneLength hstart hend hlen
  unfold handleMsgMilestone referenceDecision referenceRules ledgerTail
  dsimp only
  by_cases h1 : height < h.MilestoneHardForkHeight
  · have h1n : ¬ (height ≥ h.MilestoneHardForkHeight) := by omega
    simp [h1, h1n, firstFailure, Result.decision]
  · have h1n : height ≥ h.MilestoneHardForkHeight := by omega
    by_cases h2 : u64sub (u64add a h.MilestoneLength) 1 = e
    · have h2n := hiff.mp h2
      cases hlast : GetLastMilestone cdc s with
      | ok last =>
        by_cases h3 : u64add last.EndBlock 1 = a
        · cases hp : validatorSet.Proposer with
          | none => simp [h1, h1n, h2, h2n, h3, hp, firstFailure, Result.decision]
          | some p =>
            by_cases h4 : prop = p.Signer
            · simp [h1, h1n, h2, h2n, h3, hp, h4, firstFailure, Result.decision]
            · simp [h1, h1n, h2, h2n, h3, hp, h4, firstFailure, Result.decision]
        · have h3n : ¬ (a = u64add last.EndBlock 1) := fun hh => h3 hh.symm
          simp [h1, h1n, h2, h2n, h3, h3n, firstFailure, Result.decision]
      | error err =>
        by_cases h3 : a = h.MilestoneBorBlockHeight
        · cases hp : validatorSet.Proposer with
          | none => simp [h1, h1n, h2, h2n, if_pos h3, hp, firstFailure, Result.decision]
          | some p =>
            by_cases h4 : prop = p.Signer
            · simp [h1, h1n, h2, h2n, if_pos h3, hp, h4, firstFailure, Result.decision]
            · simp [h1, h1n, h2, h2n, if_pos h3, hp, h4, firstFailure, Result.decision]
        · simp [h1, h1n, h2, h2n, h3, firstFailure, Result.decision]
    · have h2n : ¬ (u64add (u64sub e a) 1 = h.MilestoneLength) :=
        fun hh => h2 (hiff.mpr hh)
      simp [h1, h1n, h2, h2n, firstFailure, Result.decision]

/-- Witness of C1: the first proposal of the scenario on the empty ledger. -/
theorem handleMsgMilestone_refines_reference_witness :
    scenarioMsg1.StartBlock < 18446744073709551616 ∧
    scenarioMsg1.EndBlock < 18446744073709551616 ∧
    scenarioHelper.MilestoneLength < 18446744073709551616 ∧
    ((handleMsgMilestone scenarioHelper scenarioCodec 5 scenarioMsg1 KVStore.empty
          scenarioValidatorSet).decision =
        some (referenceDecision scenarioHelper 5 scenarioMsg1
          (ledgerTail scenarioCodec KVStore.empty) scenarioValidatorSet) ∧
      (referenceDecision scenarioHelper 5 scenarioMsg1
          (ledgerTail scenarioCodec KVStore.empty) scenarioValidatorSet = .Accept ↔
        handleMsgMilestone scenarioHelper scenarioCodec 5 scenarioMsg1 KVStore.empty
          scenarioValidatorSet = .Ok [milestoneEvent scenarioMsg1])) :=
  ⟨by decide, by decide, by decide,
    handleMsgMilestone_refines_reference scenarioHelper scenarioCodec 5 scenarioMsg1
      KVStore.empty scenarioValidatorSet (by decide) (by decide) (by decide)⟩

/-! ## The ledger -/

theorem addAll_cons_ok (h : Helper) (cdc : Codec) (s : KVStore) (x : Milestone)
    (xs : List Milestone) (out : Bytes) (hx : cdc.MarshalBinaryBare x = .ok out) :
    addAll h cdc s (x :: xs) = addAll h cdc (AddMilestone h cdc s x).1 xs := by
  simp [addAll, AddMilestone_ok h cdc s x out hx]

theorem addAll_cons_error (h : Helper) (cdc : Codec) (s : KVStore) (x : Milestone)
    (xs : List Milestone) (e : Error) (hx : cdc.MarshalBinaryBare x = .error e) :
    addAll h cdc s (x :: xs) = (s, false) := by
  simp [addAll, AddMilestone_error h cdc s x e hx]

theorem addAll_snoc (h : Helper) (cdc : Codec) (ms : List Milestone) (m : Milestone) :
    ∀ s, addAll h cdc s (ms ++ [m]) =
      if (addAll h cdc s ms).2 = true then
        ((AddMilestone h cdc (addAll h cdc s ms).1 m).1,
          decide ((AddMilestone h cdc (addAll h cdc s ms).1 m).2 = none))
      else addAll h cdc s ms := by
  induction ms with
  | nil =>
    intro s
    cases hm : cdc.MarshalBinaryBare m with
    | error e =>
      simp [addAll_cons_error h cdc s m [] e hm, addAll, AddMilestone_error h cdc s m e hm]
    | ok out =>
      simp [addAll_cons_ok h cdc s m [] out hm, addAll, AddMilestone_ok h cdc s m out hm]
  | cons x xs ih =>
    intro s
    cases hx : cdc.MarshalBinaryBare x with
    | error e =>
      simp [addAll_cons_error h cdc s x _ e hx]
    | ok out =>
      rw [List.cons_append, addAll_cons_ok h cdc s x _ out hx,
        addAll_cons_ok h cdc s x _ out hx]
      exact ih _

/-- A successful run over `ms ++ [m]` is a successful run over `ms` followed by
a successful AddMilestone of `m`. -/
theorem addAll_snoc_ok (h : Helper) (cdc : Codec) (ms : List Milestone) (m : Milestone)
    (s : KVStore) (hok : (addAll h cdc s (ms ++ [m])).2 = true) :
    (addAll h cdc s ms).2 = true ∧
      (∃ out, cdc.MarshalBinaryBare m = .ok out) ∧
      (addAll h cdc s (ms ++ [m])).1 = (AddMilestone h cdc (addAll h cdc s ms).1 m).1 := by
  rw [addAll_snoc] at hok ⊢
  by_cases hp : (addAll h cdc s ms).2 = true
  · simp only [hp, if_true] at hok ⊢
    simp only [decide_eq_true_eq] at hok
    exact ⟨trivial, (AddMilestone_nil_iff h cdc _ m).mp hok, trivial⟩
  · simp only [hp, if_false] at hok
    exact absurd hok hp

/-- After a successful run the count has advanced by the number of calls,
modulo `2 ^ 64`. -/
theorem GetMilestoneCount_addAll (h : Helper) (cdc : Codec) (ms : List Milestone) :
    ∀ s, (addAll h cdc s ms).2 = true →
      GetMilestoneCount (addAll h cdc s ms).1 =
        (GetMilestoneCount s + ms.length) % 18446744073709551616 := by
  induction ms with
  | nil =>
    intro s _
    have := GetMilestoneCount_lt s
    simp only [addAll, List.length_nil, Nat.add_zero]
    omega
  | cons x xs ih =>
    intro s hok
    cases hx : cdc.MarshalBinaryBare x with
    | error e =>
      rw [addAll_cons_error h cdc s x xs e hx] at hok
      simp at hok
    | ok out =>
      have hc := AddMilestone_count h cdc s x out hx
      rw [addAll_cons_ok h cdc s x xs out hx] at hok ⊢
      rw [ih _ hok, hc]
      unfold u64add
      simp only [List.length_cons]
      omega

/-- C3. GetMilestoneCount is 0 on a store without the count key; after a run of
`n` AddMilestone calls from the empty store that all return nil, with
`n < 2 ^ 64`, it is `n`; and PruneMilestone never changes it. -/
theorem GetMilestoneCount_spec (h : Helper) (cdc : Codec) :
    (∀ s : KVStore, s.Has CountKey = false → GetMilestoneCount s = 0) ∧
    (∀ ms : List Milestone, (addAll h cdc KVStore.empty ms).2 = true →
      ms.length < 18446744073709551616 →
      GetMilestoneCount (addAll h cdc KVStore.empty ms).1 = ms.length) ∧
    (∀ (s : KVStore) (p : Nat),
      GetMilestoneCount (PruneMilestone s p) = GetMilestoneCount s) := by
  refine ⟨?_, ?_, ?_⟩
  · intro s hs
    simp [GetMilestoneCount, hs]
  · intro ms hok hlen
    rw [GetMilestoneCount_addAll h cdc ms _ hok, GetMilestoneCount_empty]
    omega
  · intro s p
    exact GetMilestoneCount_congr _ _ (PruneMilestone_CountKey s p)

/-- Witness of C3: the two milestones of the scenario added to the empty store. -/
theorem GetMilestoneCount_spec_witness :
    (addAll scenarioHelper scenarioCodec KVStore.empty
        [scenarioMsg1.toMilestone, scenarioMsg2.toMilestone]).2 = true ∧
    GetMilestoneCount (addAll scenarioHelper scenarioCodec KVStore.empty
        [scenarioMsg1.toMilestone, scenarioMsg2.toMilestone]).1 = 2 :=
  ⟨by decide,
    (GetMilestoneCount_spec scenarioHelper scenarioCodec).2.1
      [scenarioMsg1.toMilestone, scenarioMsg2.toMilestone] (by decide) (by decide)⟩

theorem Window_empty (K : Nat) : Window K KVStore.empty := by
  intro n _ hn
  exact absurd rfl hn

/-- A successful AddMilestone keeps the retention window. -/
theorem Window_AddMilestone (h : Helper) (cdc : Codec) (s : KVStore) (m : Milestone)
    (out : Bytes) (hK : h.MilestonePruneNumber < 18446744073709551616)
    (hm : cdc.MarshalBinaryBare m = .ok out) (hw : Window h.MilestonePruneNumber s) :
    Window h.MilestonePruneNumber (AddMilestone h cdc s m).1 := by
  intro n hn hpres
  rw [AddMilestone_count h cdc s m out hm]
  rw [AddMilestone_entry h cdc s m out hm n hn] at hpres
  have hc := GetMilestoneCount_lt s
  unfold Window at hw
  generalize GetMilestoneCount s = c at hc hpres hw
  generalize hKe : h.MilestonePruneNumber = K at hK hpres hw ⊢
  unfold u64sub u64add at hpres
  unfold u64add
  by_cases hn0 : n = 0
  · exact Or.inl hn0
  · right
    by_cases hnew : n = (c + 1) % 18446744073709551616
    · by_cases hK0 : K = 0
      · exfalso
        apply hpres
        rw [if_pos]
        constructor <;> omega
      · exact ⟨0, by omega, by omega⟩
    · by_cases hpr : n = ((c + 1) % 18446744073709551616 % 18446744073709551616 +
          18446744073709551616 - K % 18446744073709551616) % 18446744073709551616
      · exfalso
        apply hpres
        rw [if_pos]
        exact ⟨by omega, hpr⟩
      · rw [if_neg (fun hh => hpr hh.2), if_neg hnew] at hpres
        rcases hw n hn hpres with h0 | ⟨j, hj, hnj⟩
        · exact absurd h0 hn0
        · refine ⟨j + 1, ?_, ?_⟩
          · by_contra hjk
            apply hpr
            omega
          · omega

theorem Window_addAll (h : Helper) (cdc : Codec)
    (hK : h.MilestonePruneNumber < 18446744073709551616) (ms : List Milestone) :
    ∀ s, Window h.MilestonePruneNumber s → (addAll h cdc s ms).2 = true →
      Window h.MilestonePruneNumber (addAll h cdc s ms).1 := by
  induction ms with
  | nil => intro s hw _; exact hw
  | cons x xs ih =>
    intro s hw hok
    cases hx : cdc.MarshalBinaryBare x with
    | error e =>
      rw [addAll_cons_error h cdc s x xs e hx] at hok
      simp at hok
    | ok out =>
      rw [addAll_cons_ok h cdc s x xs out hx] at hok ⊢
      exact ih _ (Window_AddMilestone h cdc s x out hK hx hw) hok

/-- A retrievable number is a present entry. -/
theorem present_of_GetMilestoneByNumber (cdc : Codec) (s : KVStore) (n : Nat) (m : Milestone)
    (hg : GetMilestoneByNumber cdc s n = .ok m) : s (GetMilestoneKey n) ≠ none := by
  intro hnone
  rw [GetMilestoneByNumber_eq, hnone] at hg
  cases hg

/-- Under the retention window at most `K + 1` numbers are retrievable. -/
theorem Window_card (K : Nat) (cdc : Codec) (s : KVStore) (hw : Window K s)
    (S : Finset Nat)
    (hS : ∀ n ∈ S, n < 18446744073709551616 ∧ ∃ m, GetMilestoneByNumber cdc s n = .ok m) :
    S.card ≤ K + 1 := by
  have hsub : S ⊆ insert 0 ((Finset.range K).image
      (fun j => (GetMilestoneCount s + 18446744073709551616 - j) % 18446744073709551616)) := by
    intro n hn
    obtain ⟨hlt, m, hm⟩ := hS n hn
    rcases hw n hlt (present_of_GetMilestoneByNumber cdc s n m hm) with h0 | ⟨j, hj, hnj⟩
    · exact Finset.mem_insert.mpr (Or.inl h0)
    · exact Finset.mem_insert.mpr
        (Or.inr (Finset.mem_image.mpr ⟨j, Finset.mem_range.mpr hj, hnj.symm⟩))
  calc S.card ≤ (insert 0 ((Finset.range K).image
          (fun j => (GetMilestoneCount s + 18446744073709551616 - j)
            % 18446744073709551616))).card := Finset.card_le_card hsub
    _ ≤ ((Finset.range K).image
          (fun j => (GetMilestoneCount s + 18446744073709551616 - j)
            % 18446744073709551616)).card + 1 := Finset.card_insert_le _ _
    _ ≤ (Finset.range K).card + 1 := Nat.add_le_add_right Finset.card_image_le 1
    _ = K + 1 := by rw [Finset.card_range]

/-- C4. With prune window `K < 2 ^ 64`, in the state reached from the empty
store by `N` AddMilestone calls that all return nil, any set of `uint64`
numbers retrievable by GetMilestoneByNumber has at most `K + 1` elements, and
when `N > K` (and `N - K` is a `uint64`) GetMilestoneByNumber of `N - K` fails
with the error `Invalid milestone Index`. -/
theorem bounded_retention (h : Helper) (cdc : Codec) (ms : List Milestone)
    (hK : h.MilestonePruneNumber < 18446744073709551616)
    (hok : (addAll h cdc KVStore.empty ms).2 = true) :
    (∀ S : Finset Nat,
      (∀ n ∈ S, n < 18446744073709551616 ∧
        ∃ m, GetMilestoneByNumber cdc (addAll h cdc KVStore.empty ms).1 n = .ok m) →
      S.card ≤ h.MilestonePruneNumber + 1) ∧
    (h.MilestonePruneNumber < ms.length →
      ms.length - h.MilestonePruneNumber < 18446744073709551616 →
      GetMilestoneByNumber cdc (addAll h cdc KVStore.empty ms).1
        (ms.length - h.MilestonePruneNumber) = .error (.New "Invalid milestone Index")) := by
  constructor
  · intro S hS
    exact Window_card _ cdc _
      (Window_addAll h cdc hK ms _ (Window_empty _) hok) S hS
  · intro hlt hrange
    rcases List.eq_nil_or_concat ms with hnil | ⟨l, a, hla⟩
    · subst hnil
      simp at hlt
    · rw [List.concat_eq_append] at hla
      subst hla
      obtain ⟨hok1, ⟨out, hout⟩, hs⟩ := addAll_snoc_ok h cdc l a _ hok
      have hcount := GetMilestoneCount_addAll h cdc l _ hok1
      rw [GetMilestoneCount_empty] at hcount
      rw [hs, GetMilestoneByNumber_eq, AddMilestone_entry h cdc _ a out hout _ hrange, hcount]
      simp only [List.length_append, List.length_singleton] at hlt hrange ⊢
      generalize h.MilestonePruneNumber = K at hK hlt hrange ⊢
      rw [if_pos]
      unfold u64sub u64add
      constructor <;> omega

/-- Witness of C4: prune window 1 and the two milestones of the scenario; the
first is gone after the second is added. -/
theorem bounded_retention_witness :
    (1 : Nat) < 18446744073709551616 ∧
    (addAll { scenarioHelper with MilestonePruneNumber := 1 } scenarioCodec KVStore.empty
      [scenarioMsg1.toMilestone, scenarioMsg2.toMilestone]).2 = true ∧
    GetMilestoneByNumber scenarioCodec
      (addAll { scenarioHelper with MilestonePruneNumber := 1 } scenarioCodec KVStore.empty
        [scenarioMsg1.toMilestone, scenarioMsg2.toMilestone]).1 (2 - 1) =
      .error (.New "Invalid milestone Index") :=
  ⟨by decide, by decide,
    (bounded_retention { scenarioHelper with MilestonePruneNumber := 1 } scenarioCodec
      [scenarioMsg1.toMilestone, scenarioMsg2.toMilestone] (by decide) (by decide)).2
      (by decide) (by decide)⟩

/-- Entries inside the window after a successful run from the empty store. -/
theorem addAll_entries (h : Helper) (cdc : Codec)
    (hK : h.MilestonePruneNumber < 18446744073709551616) (hrt : cdc.RoundTrip)
    (ms : List Milestone) :
    (addAll h cdc KVStore.empty ms).2 = true → ms.length < 18446744073709551616 →
    ∀ i m, 1 ≤ i → ms[i - 1]? = some m → ms.length < i + h.MilestonePruneNumber →
      GetMilestoneByNumber cdc (addAll h cdc KVStore.empty ms).1 i = .ok m := by
  induction ms using List.reverseRecOn with
  | nil =>
    intro _ _ i m _ hget _
    simp at hget
  | append_singleton l a ih =>
    intro hok hlen i m hi hget hwin
    obtain ⟨hok1, ⟨out, hout⟩, hs⟩ := addAll_snoc_ok h cdc l a _ hok
    have hcount := GetMilestoneCount_addAll h cdc l _ hok1
    rw [GetMilestoneCount_empty] at hcount
    simp only [List.length_append, List.length_singleton] at hlen hwin
    have hbound : i - 1 < l.length + 1 := by
      by_contra hc
      rw [List.getElem?_eq_none (by simp; omega)] at hget
      cases hget
    rw [hs, GetMilestoneByNumber_eq, AddMilestone_entry h cdc _ a out hout i (by omega), hcount]
    generalize hKe : h.MilestonePruneNumber = K at hK hwin ih ⊢
    have hnp : ¬ (u64sub (u64add ((0 + l.length) % 18446744073709551616) 1) K ≠ 0 ∧
        i = u64sub (u64add ((0 + l.length) % 18446744073709551616) 1) K) := by
      unfold u64sub u64add
      omega
    rw [if_neg hnp]
    by_cases hlast : i = l.length + 1
    · have hi1 : i - 1 = l.length := by omega
      rw [hi1, List.getElem?_concat_length] at hget
      cases hget
      rw [if_pos (by unfold u64add; omega)]
      exact hrt _ out hout
    · have hi1 : i - 1 < l.length := by omega
      rw [List.getElem?_append_left hi1] at hget
      rw [if_neg (by unfold u64add; omega), ← GetMilestoneByNumber_eq]
      exact ih hok1 (by omega) i m hi hget (by omega)

/-- C6. After `N < 2 ^ 64` AddMilestone calls from the empty store that all
return nil, with milestones `m_1 .. m_N`, a round-trip codec and prune window
`K < 2 ^ 64`: GetMilestoneByNumber of `i` returns `m_i` for every `i` with
`1 ≤ i ≤ N` and `N < i + K`; in particular all of them when `N ≤ K`. -/
theorem retrievable_until_pruned (h : Helper) (cdc : Codec) (ms : List Milestone)
    (hK : h.MilestonePruneNumber < 18446744073709551616) (hrt : cdc.RoundTrip)
    (hok : (addAll h cdc KVStore.empty ms).2 = true)
    (hlen : ms.length < 18446744073709551616) :
    (∀ i m, 1 ≤ i → ms[i - 1]? = some m → ms.length < i + h.MilestonePruneNumber →
      GetMilestoneByNumber cdc (addAll h cdc KVStore.empty ms).1 i = .ok m) ∧
    (ms.length ≤ h.MilestonePruneNumber → ∀ i m, 1 ≤ i → ms[i - 1]? = some m →
      GetMilestoneByNumber cdc (addAll h cdc KVStore.empty ms).1 i = .ok m) := by
  refine ⟨addAll_entries h cdc hK hrt ms hok hlen, ?_⟩
  intro hle i m hi hget
  exact addAll_entries h cdc hK hrt ms hok hlen i m hi hget (by omega)

/-- Witness of C6: after the two milestones of the scenario, number 1 is the
first of them. -/
theorem retrievable_until_pruned_witness :
    scenarioHelper.MilestonePruneNumber < 18446744073709551616 ∧
    (addAll scenarioHelper scenarioCodec KVStore.empty
      [scenarioMsg1.toMilestone, scenarioMsg2.toMilestone]).2 = true ∧
    GetMilestoneByNumber scenarioCodec
      (addAll scenarioHelper scenarioCodec KVStore.empty
        [scenarioMsg1.toMilestone, scenarioMsg2.toMilestone]).1 1 =
      .ok scenarioMsg1.toMilestone :=
  ⟨by decide, by decide,
    (retrievable_until_pruned scenarioHelper scenarioCodec
      [scenarioMsg1.toMilestone, scenarioMsg2.toMilestone] (by decide)
      (tableCodec_RoundTrip _) (by decide) (by decide)).1 1 scenarioMsg1.toMilestone
      (by decide) (by decide) (by decide)⟩

/-! ## Continuity of the accepted sequence -/

theorem GetLastMilestone_of_GetMilestoneByNumber (cdc : Codec) (s : KVStore) (m : Milestone)
    (hg : GetMilestoneByNumber cdc s (GetMilestoneCount s) = .ok m) :
    GetLastMilestone cdc s = .ok m := by
  rw [GetMilestoneByNumber_eq] at hg
  rw [GetLastMilestone_eq]
  cases hs : s (GetMilestoneKey (GetMilestoneCount s)) with
  | none => rw [hs] at hg; cases hg
  | some b => rw [hs] at hg; exact hg

/-- An accepted proposal starts right after the ledger tail. -/
theorem handleMsgMilestone_ok_continuity (h : Helper) (cdc : Codec) (height : Int)
    (msg : MsgMilestone) (s : KVStore) (validatorSet : ValidatorSet) (events : List Event)
    (hacc : handleMsgMilestone h cdc height msg s validatorSet = .Ok events)
    (last : Milestone) (hlast : GetLastMilestone cdc s = .ok last) :
    u64add last.EndBlock 1 = msg.StartBlock := by
  unfold handleMsgMilestone at hacc
  by_contra hne
  by_cases h1 : height < h.MilestoneHardForkHeight
  · simp [h1] at hacc
  · by_cases h2 : u64sub (u64add msg.StartBlock h.MilestoneLength) 1 = msg.EndBlock
    · simp [h1, h2, hlast, hne] at hacc
    · simp [h1, h2] at hacc

/-- A successful AddMilestone of a milestone that starts right after the tail
keeps the ledger continuous. -/
theorem Continuous_AddMilestone (h : Helper) (cdc : Codec) (s : KVStore) (m : Milestone)
    (out : Bytes) (hK : h.MilestonePruneNumber < 18446744073709551616)
    (hrt : cdc.RoundTrip) (hm : cdc.MarshalBinaryBare m = .ok out)
    (hw : Window h.MilestonePruneNumber s) (hcont : Continuous cdc s)
    (htail : ∀ last, GetLastMilestone cdc s = .ok last → u64add last.EndBlock 1 = m.StartBlock) :
    Continuous cdc (AddMilestone h cdc s m).1 := by
  intro i mi mj hi hgi hgj
  have hw2 := Window_AddMilestone h cdc s m out hK hm hw
  have hpj := hw2 (i + 1) hi (present_of_GetMilestoneByNumber cdc _ _ mj hgj)
  rw [AddMilestone_count h cdc s m out hm] at hpj
  rw [GetMilestoneByNumber_eq, AddMilestone_entry h cdc s m out hm i (by omega)] at hgi
  rw [GetMilestoneByNumber_eq, AddMilestone_entry h cdc s m out hm (i + 1) hi] at hgj
  have hc := GetMilestoneCount_lt s
  have hclt := u64add_lt (GetMilestoneCount s) 1
  by_cases hpi : u64sub (u64add (GetMilestoneCount s) 1) h.MilestonePruneNumber ≠ 0 ∧
      i = u64sub (u64add (GetMilestoneCount s) 1) h.MilestonePruneNumber
  · rw [if_pos hpi] at hgi
    cases hgi
  · rw [if_neg hpi] at hgi
    by_cases hpj2 : u64sub (u64add (GetMilestoneCount s) 1) h.MilestonePruneNumber ≠ 0 ∧
        i + 1 = u64sub (u64add (GetMilestoneCount s) 1) h.MilestonePruneNumber
    · rw [if_pos hpj2] at hgj
      cases hgj
    · rw [if_neg hpj2] at hgj
      by_cases hic : i = u64add (GetMilestoneCount s) 1
      · exfalso
        rw [← hic] at hpj
        rcases hpj with h0 | ⟨j, hj, hnj⟩
        · omega
        · omega
      · rw [if_neg hic, ← GetMilestoneByNumber_eq] at hgi
        by_cases hjc : i + 1 = u64add (GetMilestoneCount s) 1
        · rw [if_pos hjc] at hgj
          simp only [hrt m out hm] at hgj
          cases hgj
          have hieq : i = GetMilestoneCount s := by
            unfold u64add at hjc
            omega
          rw [hieq] at hgi
          exact htail mi (GetLastMilestone_of_GetMilestoneByNumber cdc s mi hgi)
        · rw [if_neg hjc, ← GetMilestoneByNumber_eq] at hgj
          exact hcont i mi mj hi hgi hgj

theorem Continuous_empty (cdc : Codec) : Continuous cdc KVStore.empty := by
  intro i mi mj _ hgi _
  rw [GetMilestoneByNumber_eq] at hgi
  cases hgi

theorem runRounds_invariant (h : Helper) (cdc : Codec)
    (hK : h.MilestonePruneNumber < 18446744073709551616) (hrt : cdc.RoundTrip)
    (rs : List Round) :
    ∀ s, Window h.MilestonePruneNumber s → Continuous cdc s →
      (runRounds h cdc s rs).2 = true →
      Window h.MilestonePruneNumber (runRounds h cdc s rs).1 ∧
        Continuous cdc (runRounds h cdc s rs).1 := by
  induction rs with
  | nil => intro s hw hcont _; exact ⟨hw, hcont⟩
  | cons r rs ih =>
    intro s hw hcont hok
    cases hres : handleMsgMilestone h cdc r.height r.msg s r.validatorSet with
    | Err e =>
      simp [runRounds, hres] at hok
    | Ok events =>
      cases hx : cdc.MarshalBinaryBare r.msg.toMilestone with
      | error e =>
        simp [runRounds, hres, AddMilestone_error h cdc s _ e hx] at hok
      | ok out =>
        have hstep : runRounds h cdc s (r :: rs) =
            runRounds h cdc (AddMilestone h cdc s r.msg.toMilestone).1 rs := by
          simp [runRounds, hres, AddMilestone_ok h cdc s _ out hx]
        rw [hstep] at hok ⊢
        refine ih _ (Window_AddMilestone h cdc s _ out hK hx hw)
          (Continuous_AddMilestone h cdc s _ out hK hrt hx hw hcont ?_) hok
        intro last hlast
        exact handleMsgMilestone_ok_continuity h cdc r.height r.msg s r.validatorSet events
          hres last hlast

/-- C2. In every state reached from the empty store by rounds in which
handleMsgMilestone accepts the proposal and AddMilestone of it returns nil,
with a round-trip codec and prune window below `2 ^ 64`: whenever numbers `i`
and `i + 1` are both retrievable by GetMilestoneByNumber, the end block of the
first plus one is the start block of the second, in `uint64`. -/
theorem continuity_invariant (h : Helper) (cdc : Codec) (rs : List Round)
    (hK : h.MilestonePruneNumber < 18446744073709551616) (hrt : cdc.RoundTrip)
    (hok : (runRounds h cdc KVStore.empty rs).2 = true)
    (i : Nat) (mi mj : Milestone) (hi : i + 1 < 18446744073709551616)
    (hgi : GetMilestoneByNumber cdc (runRounds h cdc KVStore.empty rs).1 i = .ok mi)
    (hgj : GetMilestoneByNumber cdc (runRounds h cdc KVStore.empty rs).1 (i + 1) = .ok mj) :
    u64add mi.EndBlock 1 = mj.StartBlock :=
  (runRounds_invariant h cdc hK hrt rs _ (Window_empty _) (Continuous_empty cdc) hok).2
    i mi mj hi hgi hgj

/-- Witness of C2: the two accepted rounds of the scenario. -/
theorem continuity_invariant_witness :
    scenarioHelper.MilestonePruneNumber < 18446744073709551616 ∧
    (runRounds scenarioHelper scenarioCodec KVStore.empty
      [⟨5, scenarioMsg1, scenarioValidatorSet⟩, ⟨6, scenarioMsg2, scenarioValidatorSet⟩]).2 =
        true ∧
    GetMilestoneByNumber scenarioCodec (runRounds scenarioHelper scenarioCodec KVStore.empty
      [⟨5, scenarioMsg1, scenarioValidatorSet⟩, ⟨6, scenarioMsg2, scenarioValidatorSet⟩]).1 1 =
        .ok scenarioMsg1.toMilestone ∧
    GetMilestoneByNumber scenarioCodec (runRounds scenarioHelper scenarioCodec KVStore.empty
      [⟨5, scenarioMsg1, scenarioValidatorSet⟩, ⟨6, scenarioMsg2, scenarioValidatorSet⟩]).1
        (1 + 1) = .ok scenarioMsg2.toMilestone ∧
    u64add scenarioMsg1.toMilestone.EndBlock 1 = scenarioMsg2.toMilestone.StartBlock :=
  ⟨by decide, by decide, by decide, by decide,
    continuity_invariant scenarioHelper scenarioCodec
      [⟨5, scenarioMsg1, scenarioValidatorSet⟩, ⟨6, scenarioMsg2, scenarioValidatorSet⟩]
      (by decide) (tableCodec_RoundTrip _) (by decide) 1 scenarioMsg1.toMilestone
      scenarioMsg2.toMilestone (by decide) (by decide) (by decide)⟩

/-- C5, as amended. For every store state, every prune window `K` with
`0 < K < 2 ^ 64`, every round-trip codec and every milestone `m`: after
AddMilestone of `m` returns nil, the entry numbered GetMilestoneCount is
present and GetLastMilestone returns `m`. -/
theorem AddMilestone_tip_kept (h : Helper) (cdc : Codec) (s : KVStore) (m : Milestone)
    (hK0 : 0 < h.MilestonePruneNumber) (hK : h.MilestonePruneNumber < 18446744073709551616)
    (hrt : cdc.RoundTrip) (hnil : (AddMilestone h cdc s m).2 = none) :
    (AddMilestone h cdc s m).1.Has
        (GetMilestoneKey (GetMilestoneCount (AddMilestone h cdc s m).1)) = true ∧
      GetLastMilestone cdc (AddMilestone h cdc s m).1 = .ok m := by
  obtain ⟨out, hout⟩ := (AddMilestone_nil_iff h cdc s m).mp hnil
  have hc := AddMilestone_count h cdc s m out hout
  have hlt := u64add_lt (GetMilestoneCount s) 1
  have he := AddMilestone_entry h cdc s m out hout _ hlt
  have hne : u64add (GetMilestoneCount s) 1 ≠
      u64sub (u64add (GetMilestoneCount s) 1) h.MilestonePruneNumber := by
    generalize u64add (GetMilestoneCount s) 1 = c at hlt
    unfold u64sub
    omega
  simp only [hne, and_false, if_false, if_true] at he
  constructor
  · simp [KVStore.Has, hc, he]
  · rw [GetLastMilestone_eq, hc, he]
    exact hrt m out hout

/-- Witness of C5: the first milestone of the scenario, prune window 100. -/
theorem AddMilestone_tip_kept_witness :
    0 < scenarioHelper.MilestonePruneNumber ∧
    scenarioHelper.MilestonePruneNumber < 18446744073709551616 ∧
    (AddMilestone scenarioHelper scenarioCodec KVStore.empty scenarioMsg1.toMilestone).2 = none ∧
    GetLastMilestone scenarioCodec
      (AddMilestone scenarioHelper scenarioCodec KVStore.empty scenarioMsg1.toMilestone).1 =
        .ok scenarioMsg1.toMilestone :=
  ⟨by decide, by decide, by decide,
    (AddMilestone_tip_kept scenarioHelper scenarioCodec KVStore.empty scenarioMsg1.toMilestone
      (by decide) (by decide) (tableCodec_RoundTrip _) (by decide)).2⟩

/-- C5, as stated, fails for prune window 0: AddMilestone returns nil, and the
entry it wrote under the new count is pruned in the same call. -/
theorem AddMilestone_zero_window_prunes_tip :
    (AddMilestone zeroWindowHelper scenarioCodec KVStore.empty scenarioMsg1.toMilestone).2 =
        none ∧
      (AddMilestone zeroWindowHelper scenarioCodec KVStore.empty
          scenarioMsg1.toMilestone).1.Has
        (GetMilestoneKey (GetMilestoneCount
          (AddMilestone zeroWindowHelper scenarioCodec KVStore.empty
            scenarioMsg1.toMilestone).1)) = false ∧
      GetLastMilestone scenarioCodec
        (AddMilestone zeroWindowHelper scenarioCodec KVStore.empty
          scenarioMsg1.toMilestone).1 = .error .ErrNoMilestoneFound := by
  decide

/-- C7, as amended. For every proposal such that
`endBlock - startBlock + 1` differs from `milestoneLength` modulo `2 ^ 64`,
and every ledger state, handleMsgMilestone at a height at or past the
hard-fork height rejects with `ErrMilestoneInvalid`. -/
theorem handleMsgMilestone_rejects_wrong_length (h : Helper) (cdc : Codec) (height : Int)
    (msg : MsgMilestone) (s : KVStore) (validatorSet : ValidatorSet)
    (hfork : height ≥ h.MilestoneHardForkHeight)
    (hne : ((msg.EndBlock : Int) - (msg.StartBlock : Int) + 1 - (h.MilestoneLength : Int))
      % 18446744073709551616 ≠ 0) :
    handleMsgMilestone h cdc height msg s validatorSet = .Err .ErrMilestoneInvalid := by
  have h1 : ¬ (height < h.MilestoneHardForkHeight) := by omega
  have h2 : u64sub (u64add msg.StartBlock h.MilestoneLength) 1 ≠ msg.EndBlock := by
    unfold u64sub u64add
    omega
  simp [handleMsgMilestone, h1, h2]

/-- Witness of C7: blocks 100 to 104 with milestone length 4. -/
theorem handleMsgMilestone_rejects_wrong_length_witness :
    (5 : Int) ≥ scenarioHelper.MilestoneHardForkHeight ∧
    ((104 : Int) - 100 + 1 - 4) % 18446744073709551616 ≠ 0 ∧
    handleMsgMilestone scenarioHelper scenarioCodec 5
      { scenarioMsg1 with EndBlock := 104 } KVStore.empty scenarioValidatorSet =
        .Err .ErrMilestoneInvalid :=
  ⟨by decide, by decide,
    handleMsgMilestone_rejects_wrong_length scenarioHelper scenarioCodec 5
      { scenarioMsg1 with EndBlock := 104 } KVStore.empty scenarioValidatorSet
      (by decide) (by decide)⟩

/-- C7, as stated, fails: with milestone length 4 the proposal from block
`2 ^ 64 - 1` to block 2 has integer length `4 - 2 ^ 64`, and after a milestone
that ends at `2 ^ 64 - 2` the handler accepts it. -/
theorem handleMsgMilestone_wrapped_length_accepted :
    (wrapMsg.EndBlock : Int) - (wrapMsg.StartBlock : Int) + 1 ≠
        (scenarioHelper.MilestoneLength : Int) ∧
      (5 : Int) ≥ scenarioHelper.MilestoneHardForkHeight ∧
      handleMsgMilestone scenarioHelper (tableCodec [highMilestone]) 5 wrapMsg highStore
        scenarioValidatorSet = .Ok [milestoneEvent wrapMsg] := by
  refine ⟨by decide, by decide, ?_⟩
  decide

/-- C8. On a ledger with no milestone entry, whatever its count, and so on the
empty ledger, for a proposal that
passes the hard-fork and length tests: acceptance forces the start block to be
the genesis start block, and any other start block is rejected with
`ErrNoMilestoneFound`. -/
theorem handleMsgMilestone_first_proposal (h : Helper) (cdc : Codec) (height : Int)
    (msg : MsgMilestone) (s : KVStore) (validatorSet : ValidatorSet)
    (hentries : ∀ n, s.Has (GetMilestoneKey n) = false)
    (hfork : height ≥ h.MilestoneHardForkHeight)
    (hlen : u64sub (u64add msg.StartBlock h.MilestoneLength) 1 = msg.EndBlock) :
    ((∃ events, handleMsgMilestone h cdc height msg s validatorSet = .Ok events) →
        msg.StartBlock = h.MilestoneBorBlockHeight) ∧
      (msg.StartBlock ≠ h.MilestoneBorBlockHeight →
        handleMsgMilestone h cdc height msg s validatorSet = .Err .ErrNoMilestoneFound) := by
  have h1 : ¬ (height < h.MilestoneHardForkHeight) := by omega
  have hlast : GetLastMilestone cdc s = .error .ErrNoMilestoneFound := by
    simp [GetLastMilestone, hentries]
  have hrej : msg.StartBlock ≠ h.MilestoneBorBlockHeight →
      handleMsgMilestone h cdc height msg s validatorSet = .Err .ErrNoMilestoneFound := by
    intro hne
    simp [handleMsgMilestone, h1, hlen, hlast, hne]
  refine ⟨?_, hrej⟩
  rintro ⟨events, hev⟩
  by_contra hne
  rw [hrej hne] at hev
  cases hev

/-- Witness of C8: blocks 104 to 107 proposed on the empty store, where the
genesis start block is 100. -/
theorem handleMsgMilestone_first_proposal_witness :
    (∀ n, KVStore.empty.Has (GetMilestoneKey n) = false) ∧
    (5 : Int) ≥ scenarioHelper.MilestoneHardForkHeight ∧
    u64sub (u64add scenarioMsg2.StartBlock scenarioHelper.MilestoneLength) 1 =
      scenarioMsg2.EndBlock ∧
    scenarioMsg2.StartBlock ≠ scenarioHelper.MilestoneBorBlockHeight ∧
    handleMsgMilestone scenarioHelper scenarioCodec 5 scenarioMsg2 KVStore.empty
      scenarioValidatorSet = .Err .ErrNoMilestoneFound :=
  ⟨fun _ => rfl, by decide, by decide, by decide,
    (handleMsgMilestone_first_proposal scenarioHelper scenarioCodec 5 scenarioMsg2
      KVStore.empty scenarioValidatorSet (fun _ => rfl) (by decide) (by decide)).2
      (by decide)⟩

/-- C9. For a proposal that passes the hard-fork, length and continuity tests,
handleMsgMilestone rejects with the invalid-proposer error when the validator
set has no proposer (`No proposer in stored validator set`) and when the
proposer of the message differs from the signer of the proposer of the set
(`Invalid proposer in msg`). -/
theorem handleMsgMilestone_rejects_wrong_proposer (h : Helper) (cdc : Codec) (height : Int)
    (msg : MsgMilestone) (s : KVStore) (validatorSet : ValidatorSet)
    (hfork : height ≥ h.MilestoneHardForkHeight)
    (hlen : u64sub (u64add msg.StartBlock h.MilestoneLength) 1 = msg.EndBlock)
    (hcont : match GetLastMilestone cdc s with
      | .ok lastMilestone => u64add lastMilestone.EndBlock 1 = msg.StartBlock
      | .error _ => msg.StartBlock = h.MilestoneBorBlockHeight)
    (hprop : ∀ p, validatorSet.Proposer = some p → msg.Proposer ≠ p.Signer) :
    handleMsgMilestone h cdc height msg s validatorSet =
      .Err (.ErrInvalidMsg (if validatorSet.Proposer = none
        then "No proposer in stored validator set" else "Invalid proposer in msg")) := by
  have h1 : ¬ (height < h.MilestoneHardForkHeight) := by omega
  unfold handleMsgMilestone
  simp only [h1, if_false, hlen, ne_eq, not_true_eq_false]
  cases hlast : GetLastMilestone cdc s with
  | ok last =>
    rw [hlast] at hcont
    simp only [hcont, not_true_eq_false, if_false]
    cases hp : validatorSet.Proposer with
    | none => simp
    | some p => simp [hprop p hp]
  | error err =>
    rw [hlast] at hcont
    simp only [hcont, not_true_eq_false, if_false]
    cases hp : validatorSet.Proposer with
    | none => simp
    | some p => simp [hprop p hp]

/-- Witness of C9: the first block range of the scenario proposed by another
signer on the empty ledger. -/
theorem handleMsgMilestone_rejects_wrong_proposer_witness :
    (5 : Int) ≥ scenarioHelper.MilestoneHardForkHeight ∧
    u64sub (u64add otherSignerMsg.StartBlock scenarioHelper.MilestoneLength) 1 =
      otherSignerMsg.EndBlock ∧
    GetLastMilestone scenarioCodec KVStore.empty = .error .ErrNoMilestoneFound ∧
    otherSignerMsg.StartBlock = scenarioHelper.MilestoneBorBlockHeight ∧
    (∀ p, scenarioValidatorSet.Proposer = some p → otherSignerMsg.Proposer ≠ p.Signer) ∧
    handleMsgMilestone scenarioHelper scenarioCodec 5 otherSignerMsg KVStore.empty
      scenarioValidatorSet =
      .Err (.ErrInvalidMsg (if scenarioValidatorSet.Proposer = none
        then "No proposer in stored validator set" else "Invalid proposer in msg")) :=
  ⟨by decide, by decide, by decide, by decide, by intro p hp; cases hp; decide,
    handleMsgMilestone_rejects_wrong_proposer scenarioHelper scenarioCodec 5 otherSignerMsg
      KVStore.empty scenarioValidatorSet (by decide) (by decide)
      (by show otherSignerMsg.StartBlock = scenarioHelper.MilestoneBorBlockHeight; rfl)
      (by intro p hp; cases hp; decide)⟩

/-! ## The id registry and the validator -/

/-- Registering an id leaves the count and every milestone entry as they
are, and so the ledger tail. -/
theorem GetLastMilestone_SetMilestoneID (cdc : Codec) (s : KVStore) (id : Bytes) :
    GetLastMilestone cdc (SetMilestoneID s id) = GetLastMilestone cdc s := by
  have hcount : GetMilestoneCount (SetMilestoneID s id) = GetMilestoneCount s := by
    apply GetMilestoneCount_congr
    simp [SetMilestoneID, KVStore.Set, CountKey, GetMilestoneIDKey, MilestoneIDKey]
  have hentry : ∀ n, (SetMilestoneID s id) (GetMilestoneKey n) = s (GetMilestoneKey n) := by
    intro n
    simp [SetMilestoneID, KVStore.Set, GetMilestoneKey, MilestoneKey, GetMilestoneIDKey,
      MilestoneIDKey]
  rw [GetLastMilestone_eq, GetLastMilestone_eq, hcount, hentry]

/-- C10, as amended. handleMsgMilestone does not read the id registry: on
every store state, registering an id with SetMilestoneID leaves its result on
every proposal unchanged. In the scenario (milestone length 4, genesis start
100, blocks 100 to 103 then 104 to 107 accepted, added and registered) the
first id is registered and re-proposing blocks 100 to 103 under it is rejected
with `ErrMilestoneNotInContinuity`. -/
theorem handleMsgMilestone_ignores_registry (h : Helper) (cdc : Codec) (height : Int)
    (msg : MsgMilestone) (s : KVStore) (validatorSet : ValidatorSet) (id : Bytes) :
    handleMsgMilestone h cdc height msg (SetMilestoneID s id) validatorSet =
        handleMsgMilestone h cdc height msg s validatorSet ∧
      GetMilestoneID scenarioStore scenarioMsg1.MilestoneID = true ∧
      handleMsgMilestone scenarioHelper scenarioCodec 7 scenarioMsg1 scenarioStore
        scenarioValidatorSet = .Err .ErrMilestoneNotInContinuity := by
  refine ⟨?_, by decide, by decide⟩
  unfold handleMsgMilestone
  rw [GetLastMilestone_SetMilestoneID]

/-- C10, as stated, fails: the id `m1` is registered, and the proposal of
blocks 104 to 107 that carries it is accepted. -/
theorem handleMsgMilestone_accepts_registered_id :
    GetMilestoneID registeredStore replayMsg.MilestoneID = true ∧
      handleMsgMilestone scenarioHelper scenarioCodec 6 replayMsg registeredStore
        scenarioValidatorSet = .Ok [milestoneEvent replayMsg] := by
  decide

/-! ## Key derivation -/

/-- C11. GetMilestoneKey is injective on `uint64`, and for every number and
every two ids the six keys GetMilestoneKey, CountKey, GetMilestoneNoAckKey,
MilestoneLastNoAckKey, LastMilestoneTimeout and GetMilestoneIDKey are pairwise
different byte strings. -/
theorem key_derivation_collision_free :
    (∀ a b : Nat, a < 18446744073709551616 → b < 18446744073709551616 →
      GetMilestoneKey a = GetMilestoneKey b → a = b) ∧
    (∀ (n : Nat) (s t : Bytes),
      List.Pairwise (fun k1 k2 : Bytes => k1 ≠ k2)
        [GetMilestoneKey n, CountKey, GetMilestoneNoAckKey s, MilestoneLastNoAckKey,
          LastMilestoneTimeout, GetMilestoneIDKey t]) := by
  constructor
  · intro a b ha hb hab
    exact GetMilestoneKey_inj ha hb hab
  · intro n s t
    simp [GetMilestoneKey, MilestoneKey, CountKey, GetMilestoneNoAckKey, MilestoneNoAckKey,
      MilestoneLastNoAckKey, LastMilestoneTimeout, GetMilestoneIDKey, MilestoneIDKey]

/-- Witness of C11: the keys of numbers 1 and 12 differ. -/
theorem key_derivation_collision_free_witness :
    (1 : Nat) < 18446744073709551616 ∧ (12 : Nat) < 18446744073709551616 ∧
    GetMilestoneKey 1 ≠ GetMilestoneKey 12 :=
  ⟨by decide, by decide, fun hk =>
    absurd (key_derivation_collision_free.1 1 12 (by decide) (by decide) hk) (by decide)⟩

/-! ## No-ack and timeout tracker -/

/-- C12. GetLastNoAckMilestone is the empty string on a store without the
last-no-ack key; after SetNoAckMilestone of an id, on every store,
GetLastNoAckMilestone is that id, GetNoAckMilestone of it is true, and
GetNoAckMilestone of every other id is as before; on the empty store it is
false for every id. -/
theorem SetNoAckMilestone_spec :
    (∀ s : KVStore, s.Has MilestoneLastNoAckKey = false → GetLastNoAckMilestone s = []) ∧
    (∀ (s : KVStore) (id : Bytes),
      GetLastNoAckMilestone (SetNoAckMilestone s id) = id ∧
      GetNoAckMilestone (SetNoAckMilestone s id) id = true ∧
      ∀ id2 : Bytes, id2 ≠ id →
        GetNoAckMilestone (SetNoAckMilestone s id) id2 = GetNoAckMilestone s id2) ∧
    (∀ id : Bytes, GetNoAckMilestone KVStore.empty id = false) := by
  refine ⟨?_, ?_, ?_⟩
  · intro s hs
    simp [GetLastNoAckMilestone, hs]
  · intro s id
    refine ⟨?_, ?_, ?_⟩
    · simp [GetLastNoAckMilestone, SetNoAckMilestone, KVStore.Has, KVStore.Get, KVStore.Set]
    · simp [GetNoAckMilestone, SetNoAckMilestone, KVStore.Has, KVStore.Set,
        GetMilestoneNoAckKey, MilestoneNoAckKey, MilestoneLastNoAckKey]
    · intro id2 hne
      simp [GetNoAckMilestone, SetNoAckMilestone, KVStore.Has, KVStore.Set,
        GetMilestoneNoAckKey, MilestoneNoAckKey, MilestoneLastNoAckKey, hne]
  · intro id
    simp [GetNoAckMilestone, KVStore.Has, KVStore.empty]

/-- Witness of C12: after recording `m5` on the empty store, `m6` is still
not in the no-ack set. -/
theorem SetNoAckMilestone_spec_witness :
    ([109, 54] : Bytes) ≠ [109, 53] ∧
    GetNoAckMilestone (SetNoAckMilestone KVStore.empty [109, 53]) [109, 54] =
      GetNoAckMilestone KVStore.empty [109, 54] :=
  ⟨by decide,
    (SetNoAckMilestone_spec.2.1 KVStore.empty [109, 53]).2.2 [109, 54] (by decide)⟩

/-- C17. GetLastMilestoneTimeout is 0 on a store without the timeout key, and
on every store SetLastMilestoneTimeout of a `uint64` followed by
GetLastMilestoneTimeout gives the number back. -/
theorem LastMilestoneTimeout_spec :
    (∀ s : KVStore, s.Has LastMilestoneTimeout = false → GetLastMilestoneTimeout s = 0) ∧
    (∀ (s : KVStore) (t : Nat), t < 18446744073709551616 →
      GetLastMilestoneTimeout (SetLastMilestoneTimeout s t) = t) := by
  constructor
  · intro s hs
    simp [GetLastMilestoneTimeout, hs]
  · intro s t ht
    simp [GetLastMilestoneTimeout, SetLastMilestoneTimeout, KVStore.Has, KVStore.Get,
      KVStore.Set, ParseUint_FormatUint t ht]

/-- Witness of C17: the largest `uint64` written on the empty store. -/
theorem LastMilestoneTimeout_spec_witness :
    (18446744073709551615 : Nat) < 18446744073709551616 ∧
    GetLastMilestoneTimeout (SetLastMilestoneTimeout KVStore.empty 18446744073709551615) =
      18446744073709551615 :=
  ⟨by decide, LastMilestoneTimeout_spec.2 KVStore.empty 18446744073709551615 (by decide)⟩

/-! ## Id registry -/

/-- C18. After SetMilestoneID of an id, on every store, GetMilestoneID of it is
true, GetMilestoneID of every other id is as before, and a second
SetMilestoneID of the same id leaves the store as the first left it; on the
empty store GetMilestoneID is false for every id. -/
theorem SetMilestoneID_spec :
    (∀ (s : KVStore) (id : Bytes),
      GetMilestoneID (SetMilestoneID s id) id = true ∧
      (∀ id2 : Bytes, id2 ≠ id →
        GetMilestoneID (SetMilestoneID s id) id2 = GetMilestoneID s id2) ∧
      SetMilestoneID (SetMilestoneID s id) id = SetMilestoneID s id) ∧
    (∀ id : Bytes, GetMilestoneID KVStore.empty id = false) := by
  constructor
  · intro s id
    refine ⟨?_, ?_, ?_⟩
    · simp [GetMilestoneID, SetMilestoneID, KVStore.Has, KVStore.Set]
    · intro id2 hne
      simp [GetMilestoneID, SetMilestoneID, KVStore.Has, KVStore.Set, GetMilestoneIDKey,
        MilestoneIDKey, hne]
    · funext k
      simp only [SetMilestoneID, KVStore.Set]
      by_cases hk : k = GetMilestoneIDKey id <;> simp [hk]
  · intro id
    simp [GetMilestoneID, KVStore.Has, KVStore.empty]

/-- Witness of C18: registering `m1` on the empty store leaves `m2`
unregistered. -/
theorem SetMilestoneID_spec_witness :
    ([109, 50] : Bytes) ≠ [109, 49] ∧
    GetMilestoneID (SetMilestoneID KVStore.empty [109, 49]) [109, 50] =
      GetMilestoneID KVStore.empty [109, 50] :=
  ⟨by decide, (SetMilestoneID_spec.1 KVStore.empty [109, 49]).2.1 [109, 50] (by decide)⟩

/-! ## Queries -/

/-- C13, evaluated on the code. The result of handleQueryLatestNoAckMilestone
is the same on every two stores; after SetNoAckMilestone of `m5` on the empty
store GetLastNoAckMilestone is `m5`, the query as the specification words it
gives the JSON string `m5`, and the handler gives the JSON string
`testing`. -/
theorem handleQueryLatestNoAckMilestone_returns_testing :
    (∀ (jsonMarshal : Bytes → Except String Bytes) (s t : KVStore),
      handleQueryLatestNoAckMilestone jsonMarshal s =
        handleQueryLatestNoAckMilestone jsonMarshal t) ∧
    GetLastNoAckMilestone (SetNoAckMilestone KVStore.empty [109, 53]) = [109, 53] ∧
    queryLatestNoAckSpec jsonQuote (SetNoAckMilestone KVStore.empty [109, 53]) =
      .ok [34, 109, 53, 34] ∧
    handleQueryLatestNoAckMilestone jsonQuote (SetNoAckMilestone KVStore.empty [109, 53]) =
      .ok [34, 116, 101, 115, 116, 105, 110, 103, 34] := by
  refine ⟨fun _ _ _ => rfl, by decide, by decide, by decide⟩

/-! ## The tail of the ledger -/

/-- C14. On every store GetLastMilestone and GetMilestoneByNumber of the count
succeed together and then return the same milestone; when the entry of the
count is present they return the same result, also on a decoding error; when
it is absent GetLastMilestone fails with `ErrNoMilestoneFound` and
GetMilestoneByNumber with `Invalid milestone Index`, which are different
errors. -/
theorem GetLastMilestone_equiv (cdc : Codec) (s : KVStore) :
    (∀ m, GetLastMilestone cdc s = .ok m ↔
      GetMilestoneByNumber cdc s (GetMilestoneCount s) = .ok m) ∧
    (s.Has (GetMilestoneKey (GetMilestoneCount s)) = true →
      GetLastMilestone cdc s = GetMilestoneByNumber cdc s (GetMilestoneCount s)) ∧
    (s.Has (GetMilestoneKey (GetMilestoneCount s)) = false →
      GetLastMilestone cdc s = .error .ErrNoMilestoneFound ∧
      GetMilestoneByNumber cdc s (GetMilestoneCount s) =
        .error (.New "Invalid milestone Index")) ∧
    Error.ErrNoMilestoneFound ≠ Error.New "Invalid milestone Index" := by
  rw [GetLastMilestone_eq, GetMilestoneByNumber_eq]
  unfold KVStore.Has
  cases hs : s (GetMilestoneKey (GetMilestoneCount s)) with
  | none => simp
  | some b => simp

/-- Witness of C14: on the empty store the two calls fail with the two
errors. -/
theorem GetLastMilestone_equiv_witness :
    KVStore.empty.Has (GetMilestoneKey (GetMilestoneCount KVStore.empty)) = false ∧
    GetLastMilestone scenarioCodec KVStore.empty = .error .ErrNoMilestoneFound ∧
    GetMilestoneByNumber scenarioCodec KVStore.empty (GetMilestoneCount KVStore.empty) =
      .error (.New "Invalid milestone Index") :=
  ⟨by decide, (GetLastMilestone_equiv scenarioCodec KVStore.empty).2.2.1 (by decide)⟩

/-! ## Failure of AddMilestone -/

/-- C15. When the encoding of the milestone fails, AddMilestone returns that
error and the store it was given; and every error AddMilestone returns is the
error of the encoding. -/
theorem AddMilestone_atomic (h : Helper) (cdc : Codec) (s : KVStore) (m : Milestone) :
    (∀ e, cdc.MarshalBinaryBare m = .error e → AddMilestone h cdc s m = (s, some e)) ∧
    (∀ e, (AddMilestone h cdc s m).2 = some e → cdc.MarshalBinaryBare m = .error e) := by
  constructor
  · intro e he
    exact AddMilestone_error h cdc s m e he
  · intro e he
    cases hm : cdc.MarshalBinaryBare m with
    | error e2 =>
      rw [AddMilestone_error h cdc s m e2 hm] at he
      simp only [Option.some.injEq] at he
      rw [he]
    | ok out =>
      rw [AddMilestone_ok h cdc s m out hm] at he
      cases he

/-- Witness of C15: the wrapped milestone is not in the table of the scenario
codec, and the ledger of the scenario is returned as it was. -/
theorem AddMilestone_atomic_witness :
    scenarioCodec.MarshalBinaryBare highMilestone = .error (.New "milestone not in table") ∧
    (AddMilestone scenarioHelper scenarioCodec scenarioStore highMilestone).2 =
      some (.New "milestone not in table") ∧
    (AddMilestone scenarioHelper scenarioCodec scenarioStore highMilestone).1 = scenarioStore :=
  ⟨by decide,
    congrArg Prod.snd ((AddMilestone_atomic scenarioHelper scenarioCodec scenarioStore
      highMilestone).1 (.New "milestone not in table") (by decide)),
    congrArg Prod.fst ((AddMilestone_atomic scenarioHelper scenarioCodec scenarioStore
      highMilestone).1 (.New "milestone not in table") (by decide))⟩

/-! ## The validator and the store -/

theorem GetMilestoneCountSt_eq (s : KVStore) :
    GetMilestoneCountSt s = (GetMilestoneCount s, s) := by
  unfold GetMilestoneCountSt GetMilestoneCount KVStore.HasSt KVStore.GetSt
  cases hh : s.Has CountKey with
  | false => simp
  | true =>
    simp only [if_true]
    cases ParseUint (s.Get CountKey) <;> rfl

theorem GetLastMilestoneSt_eq (cdc : Codec) (s : KVStore) :
    GetLastMilestoneSt cdc s = (GetLastMilestone cdc s, s) := by
  unfold GetLastMilestoneSt GetLastMilestone KVStore.HasSt KVStore.GetSt
  rw [GetMilestoneCountSt_eq]
  simp only []
  cases hh : s.Has (GetMilestoneKey (GetMilestoneCount s)) with
  | false => simp
  | true =>
    simp only [if_true]
    cases cdc.UnmarshalBinaryBare (s.Get (GetMilestoneKey (GetMilestoneCount s))) <;> rfl

/-- C16. For every height, message, store state and validator set, the store
after handleMsgMilestone is the store before it, whether the result is an
acceptance or a rejection; the result is that of the handler read as a
function of the store. -/
theorem handleMsgMilestone_store_unchanged (h : Helper) (cdc : Codec) (height : Int)
    (msg : MsgMilestone) (s : KVStore) (validatorSet : ValidatorSet) :
    (handleMsgMilestoneSt h cdc height msg s validatorSet).2 = s ∧
    (handleMsgMilestoneSt h cdc height msg s validatorSet).1 =
      handleMsgMilestone h cdc height msg s validatorSet := by
  unfold handleMsgMilestoneSt handleMsgMilestone
  rw [GetLastMilestoneSt_eq]
  simp only []
  by_cases h1 : height < h.MilestoneHardForkHeight
  · simp [h1]
  · by_cases h2 : u64sub (u64add msg.StartBlock h.MilestoneLength) 1 = msg.EndBlock
    · simp only [h1, if_false, h2, ne_eq, not_true_eq_false]
      cases hlast : GetLastMilestone cdc s with
      | ok last =>
        by_cases h3 : u64add last.EndBlock 1 = msg.StartBlock <;> simp [h3]
      | error e =>
        by_cases h3 : msg.StartBlock = h.MilestoneBorBlockHeight <;> simp [h3]
    · simp [h1, h2]

/-! ## Pruning -/

/-- C19. On every store: PruneMilestone of 0 changes nothing; PruneMilestone of
`n > 0` leaves no entry under GetMilestoneKey of `n` and leaves every other key
as it was, in particular the entry of every other `uint64` number; pruning an
absent entry changes nothing; and pruning the same number twice is pruning it
once. -/
theorem PruneMilestone_spec (s : KVStore) (n : Nat) :
    PruneMilestone s 0 = s ∧
    (0 < n → (PruneMilestone s n) (GetMilestoneKey n) = none ∧
      ∀ k : Bytes, k ≠ GetMilestoneKey n → (PruneMilestone s n) k = s k) ∧
    (n < 18446744073709551616 → ∀ m : Nat, m < 18446744073709551616 → m ≠ n →
      (PruneMilestone s n) (GetMilestoneKey m) = s (GetMilestoneKey m)) ∧
    (s.Has (GetMilestoneKey n) = false → PruneMilestone s n = s) ∧
    PruneMilestone (PruneMilestone s n) n = PruneMilestone s n := by
  refine ⟨?_, ?_, ?_, ?_, ?_⟩
  · simp [PruneMilestone]
  · intro hn
    rw [PruneMilestone_eq]
    have hn0 : n ≠ 0 := by omega
    simp only [hn0, if_false, KVStore.Delete, if_true, true_and]
    intro k hk
    simp [hk]
  · intro hn m hm hmn
    rw [PruneMilestone_eq]
    by_cases hn0 : n = 0
    · simp [hn0]
    · have hk : GetMilestoneKey m ≠ GetMilestoneKey n :=
        fun hk => hmn (GetMilestoneKey_inj hm hn hk)
      simp [hn0, KVStore.Delete, hk]
  · intro habs
    unfold PruneMilestone
    by_cases hn0 : n ≤ 0
    · simp [hn0]
    · simp [hn0, habs]
  · rw [PruneMilestone_eq, PruneMilestone_eq]
    by_cases hn0 : n = 0
    · simp [hn0]
    · simp only [hn0, if_false]
      funext k
      simp only [KVStore.Delete]
      by_cases hk : k = GetMilestoneKey n <;> simp [hk]

/-- Witness of C19: pruning number 1 from the ledger of the scenario removes
entry 1 and keeps entry 2. -/
theorem PruneMilestone_spec_witness :
    0 < 1 ∧ (1 : Nat) < 18446744073709551616 ∧ (2 : Nat) < 18446744073709551616 ∧
    (PruneMilestone scenarioStore 1) (GetMilestoneKey 1) = none ∧
    (PruneMilestone scenarioStore 1) (GetMilestoneKey 2) = scenarioStore (GetMilestoneKey 2) :=
  ⟨by decide, by decide, by decide,
    ((PruneMilestone_spec scenarioStore 1).2.1 (by decide)).1,
    (PruneMilestone_spec scenarioStore 1).2.2.1 (by decide) 2 (by decide) (by decide)⟩

/-! ## Ledger keys and tracker keys -/

/-- A key written by the ledger: the count key or the key of a number. -/
theorem AddMilestone_other_key (h : Helper) (cdc : Codec) (s : KVStore) (m : Milestone)
    (k : Bytes) (hk1 : k ≠ CountKey) (hk2 : ∀ n, k ≠ GetMilestoneKey n) :
    (AddMilestone h cdc s m).1 k = s k := by
  cases hm : cdc.MarshalBinaryBare m with
  | error e => rw [AddMilestone_error h cdc s m e hm]
  | ok out =>
    rw [AddMilestone_ok h cdc s m out hm]
    simp only [SetMilestoneCount, KVStore.Set, hk1, if_false]
    rw [PruneMilestone_eq]
    split
    · simp [KVStore.Set, hk2]
    · simp [KVStore.Delete, KVStore.Set, hk2]

theorem PruneMilestone_other_key (s : KVStore) (p : Nat) (k : Bytes)
    (hk2 : ∀ n, k ≠ GetMilestoneKey n) : (PruneMilestone s p) k = s k := by
  rw [PruneMilestone_eq]
  split
  · rfl
  · simp [KVStore.Delete, hk2]

theorem GetLastNoAckMilestone_congr (s t : KVStore)
    (hst : t MilestoneLastNoAckKey = s MilestoneLastNoAckKey) :
    GetLastNoAckMilestone t = GetLastNoAckMilestone s := by
  simp [GetLastNoAckMilestone, KVStore.Has, KVStore.Get, hst]

theorem GetNoAckMilestone_congr (s t : KVStore) (id : Bytes)
    (hst : t (GetMilestoneNoAckKey id) = s (GetMilestoneNoAckKey id)) :
    GetNoAckMilestone t id = GetNoAckMilestone s id := by
  simp [GetNoAckMilestone, KVStore.Has, hst]

theorem GetLastMilestoneTimeout_congr (s t : KVStore)
    (hst : t LastMilestoneTimeout = s LastMilestoneTimeout) :
    GetLastMilestoneTimeout t = GetLastMilestoneTimeout s := by
  simp [GetLastMilestoneTimeout, KVStore.Has, KVStore.Get, hst]

theorem GetMilestoneID_congr (s t : KVStore) (id : Bytes)
    (hst : t (GetMilestoneIDKey id) = s (GetMilestoneIDKey id)) :
    GetMilestoneID t id = GetMilestoneID s id := by
  simp [GetMilestoneID, KVStore.Has, hst]

theorem GetMilestoneByNumber_congr (cdc : Codec) (s t : KVStore) (n : Nat)
    (hst : t (GetMilestoneKey n) = s (GetMilestoneKey n)) :
    GetMilestoneByNumber cdc t n = GetMilestoneByNumber cdc s n := by
  rw [GetMilestoneByNumber_eq, GetMilestoneByNumber_eq, hst]

/-- The four tracker readers agree on two stores that agree on every key
other than the count key and the keys of numbers. -/
theorem tracker_readers_congr (s t : KVStore) (id : Bytes)
    (hst : ∀ k : Bytes, k ≠ CountKey → (∀ n, k ≠ GetMilestoneKey n) → t k = s k) :
    GetLastNoAckMilestone t = GetLastNoAckMilestone s ∧
    GetNoAckMilestone t id = GetNoAckMilestone s id ∧
    GetLastMilestoneTimeout t = GetLastMilestoneTimeout s ∧
    GetMilestoneID t id = GetMilestoneID s id := by
  refine ⟨GetLastNoAckMilestone_congr s t (hst _ ?_ ?_),
    GetNoAckMilestone_congr s t id (hst _ ?_ ?_),
    GetLastMilestoneTimeout_congr s t (hst _ ?_ ?_),
    GetMilestoneID_congr s t id (hst _ ?_ ?_)⟩ <;>
  simp [GetMilestoneKey, MilestoneKey, CountKey, GetMilestoneNoAckKey, MilestoneNoAckKey,
    MilestoneLastNoAckKey, LastMilestoneTimeout, GetMilestoneIDKey, MilestoneIDKey]

/-- C20. On every store, AddMilestone and PruneMilestone leave
GetLastNoAckMilestone, GetNoAckMilestone, GetLastMilestoneTimeout and
GetMilestoneID of every id as they were; SetNoAckMilestone,
SetLastMilestoneTimeout and SetMilestoneID leave GetMilestoneCount and
GetMilestoneByNumber of every number as they were. -/
theorem ledger_tracker_disjoint (h : Helper) (cdc : Codec) (s : KVStore) (m : Milestone)
    (p : Nat) (id id2 : Bytes) (t n : Nat) :
    (GetLastNoAckMilestone (AddMilestone h cdc s m).1 = GetLastNoAckMilestone s ∧
      GetNoAckMilestone (AddMilestone h cdc s m).1 id = GetNoAckMilestone s id ∧
      GetLastMilestoneTimeout (AddMilestone h cdc s m).1 = GetLastMilestoneTimeout s ∧
      GetMilestoneID (AddMilestone h cdc s m).1 id = GetMilestoneID s id) ∧
    (GetLastNoAckMilestone (PruneMilestone s p) = GetLastNoAckMilestone s ∧
      GetNoAckMilestone (PruneMilestone s p) id = GetNoAckMilestone s id ∧
      GetLastMilestoneTimeout (PruneMilestone s p) = GetLastMilestoneTimeout s ∧
      GetMilestoneID (PruneMilestone s p) id = GetMilestoneID s id) ∧
    (GetMilestoneCount (SetNoAckMilestone s id2) = GetMilestoneCount s ∧
      GetMilestoneByNumber cdc (SetNoAckMilestone s id2) n = GetMilestoneByNumber cdc s n) ∧
    (GetMilestoneCount (SetLastMilestoneTimeout s t) = GetMilestoneCount s ∧
      GetMilestoneByNumber cdc (SetLastMilestoneTimeout s t) n =
        GetMilestoneByNumber cdc s n) ∧
    (GetMilestoneCount (SetMilestoneID s id2) = GetMilestoneCount s ∧
      GetMilestoneByNumber cdc (SetMilestoneID s id2) n = GetMilestoneByNumber cdc s n) := by
  refine ⟨tracker_readers_congr s _ id (fun k hk1 hk2 => AddMilestone_other_key h cdc s m k hk1 hk2),
    tracker_readers_congr s _ id (fun k _ hk2 => PruneMilestone_other_key s p k hk2),
    ⟨GetMilestoneCount_congr _ _ ?_, GetMilestoneByNumber_congr cdc _ _ n ?_⟩,
    ⟨GetMilestoneCount_congr _ _ ?_, GetMilestoneByNumber_congr cdc _ _ n ?_⟩,
    ⟨GetMilestoneCount_congr _ _ ?_, GetMilestoneByNumber_congr cdc _ _ n ?_⟩⟩ <;>
  simp [SetNoAckMilestone, SetLastMilestoneTimeout, SetMilestoneID, KVStore.Set,
    GetMilestoneKey, MilestoneKey, CountKey, GetMilestoneNoAckKey, MilestoneNoAckKey,
    MilestoneLastNoAckKey, LastMilestoneTimeout, GetMilestoneIDKey, MilestoneIDKey]

/-! ## Milestone validation -/

/-- C21. For all inputs ValidateMilestone returns `(true, nil)` exactly when
`start + milestoneLength - 1 == end` in `uint64` and CheckIfBlocksExist of
`end` is true; when the length test fails it returns false with the length
error, and when the blocks are missing false with `blocks not found locally`;
and its result does not change with the root hash, the milestone id or
GetVoteOnRootHash: with a caller that votes against every root hash the
first range of the scenario is still validated. -/
theorem ValidateMilestone_never_votes (start endBlock : Nat) (rootHash milestoneID : Bytes)
    (contractCaller : IContractCaller) (milestoneLength : Nat) :
    (ValidateMilestone start endBlock rootHash milestoneID contractCaller milestoneLength =
        (true, none) ↔
      u64sub (u64add start milestoneLength) 1 = endBlock ∧
        contractCaller.CheckIfBlocksExist endBlock = true) ∧
    (u64sub (u64add start milestoneLength) 1 ≠ endBlock →
      ValidateMilestone start endBlock rootHash milestoneID contractCaller milestoneLength =
        (false, some (.New
          "Invalid milestone, difference in start and end block is not equal to sprint length"))) ∧
    (u64sub (u64add start milestoneLength) 1 = endBlock →
      contractCaller.CheckIfBlocksExist endBlock = false →
      ValidateMilestone start endBlock rootHash milestoneID contractCaller milestoneLength =
        (false, some (.New "blocks not found locally"))) ∧
    (∀ (rootHash2 milestoneID2 : Bytes)
        (vote2 : Nat → Nat → Nat → Bytes → Bytes → Except Error Bool),
      ValidateMilestone start endBlock rootHash2 milestoneID2
          { contractCaller with GetVoteOnRootHash := vote2 } milestoneLength =
        ValidateMilestone start endBlock rootHash milestoneID contractCaller milestoneLength) ∧
    ValidateMilestone 100 103 [1] [109, 49] rejectingCaller 4 = (true, none) := by
  unfold ValidateMilestone
  refine ⟨?_, ?_, ?_, ?_, by decide⟩
  · by_cases h1 : u64sub (u64add start milestoneLength) 1 = endBlock
    · cases h2 : contractCaller.CheckIfBlocksExist endBlock <;> simp [h1, h2]
    · simp [h1]
  · intro h1
    simp [h1]
  · intro h1 h2
    simp [h1, h2]
  · intro rootHash2 milestoneID2 vote2
    by_cases h1 : u64sub (u64add start milestoneLength) 1 = endBlock
    · cases h2 : contractCaller.CheckIfBlocksExist endBlock <;> simp [h1, h2]
    · simp [h1]

/-- Witness of C21: blocks 100 to 104 with milestone length 4 fail the length
test, and blocks 100 to 103 fail the block test with a caller that has no
block. -/
theorem ValidateMilestone_never_votes_witness :
    u64sub (u64add 100 4) 1 ≠ 104 ∧
    ValidateMilestone 100 104 [1] [109, 49] rejectingCaller 4 =
      (false, some (.New
        "Invalid milestone, difference in start and end block is not equal to sprint length")) ∧
    u64sub (u64add 100 4) 1 = 103 ∧
    ValidateMilestone 100 103 [1] [109, 49]
        { rejectingCaller with CheckIfBlocksExist := fun _ => false } 4 =
      (false, some (.New "blocks not found locally")) :=
  ⟨by decide,
    (ValidateMilestone_never_votes 100 104 [1] [109, 49] rejectingCaller 4).2.1 (by decide),
    by decide,
    (ValidateMilestone_never_votes 100 103 [1] [109, 49]
      { rejectingCaller with CheckIfBlocksExist := fun _ => false } 4).2.2.1 (by decide) rfl⟩

end Heimdall
